import Mathlib

/-!
Shallow embedding of the `tyr-blog-img` gallery-ingestion core
(`internal/gallery/service.go`, `internal/gallery` image processor,
`internal/database/d1.go`).

Remote effects (the D1 metadata store, the R2 blob store, the external
`cwebp` encoder, the Go `image` package decoders and `http.DetectContentType`)
are modelled by an explicit environment: the metadata-store contents are a
pure state, each remote call may be made to fail by the environment, and the
decoder/encoder/hash primitives are environment-supplied functions.  Every
service operation returns, besides its Go result, the resulting store state
and the trace of store/processor calls it performed, so that claims about
"no insert happened" or "the compensating delete ran on an independent
context" are stated over the trace.
-/

namespace TyrBlogImg

/-- Whether `pat` is a prefix of `s` (on character lists). -/
def hasPrefixL (pat s : List Char) : Bool :=
  match pat, s with
  | [], _ => true
  | _ :: _, [] => false
  | a :: as, b :: bs => a = b && hasPrefixL as bs

/-- Whether `pat` occurs inside `s` (on character lists). -/
def hasInfixL (pat s : List Char) : Bool :=
  match s with
  | [] => pat.isEmpty
  | c :: rest => hasPrefixL pat (c :: rest) || hasInfixL pat rest

/-- Substring containment, modelling Go `strings.Contains`. -/
def strContains (s pat : String) : Bool :=
  hasInfixL pat.data s.data

/-- Go `strings.TrimSpace`: drop leading and trailing whitespace. -/
def goTrim (s : String) : String :=
  String.mk (((s.data.dropWhile Char.isWhitespace).reverse.dropWhile
    Char.isWhitespace).reverse)

/-- ASCII lower-casing of one character (the inputs this system lower-cases
are hex digests, `h`/`v` tags and MIME strings, all ASCII). -/
def lowerChar (c : Char) : Char :=
  if 65 ≤ c.toNat ∧ c.toNat ≤ 90 then Char.ofNat (c.toNat + 32) else c

/-- Go `strings.ToLower` on the ASCII fragment this system uses. -/
def goLower (s : String) : String :=
  String.mk (s.data.map lowerChar)

/-- Go string slicing `s[:n]` (on the ASCII strings `pickID` slices). -/
def strTake (s : String) (n : Nat) : String :=
  String.mk (s.data.take n)

/-- Observable facts of a Go `context.Context` that the service depends on:
whether it has been cancelled, and whether it carries a deadline/timeout. -/
structure Ctx where
  cancelled : Bool
  hasDeadline : Bool
deriving DecidableEq

/-- Go `context.Background()`: never cancelled, carries no deadline. -/
def Ctx.background : Ctx := ⟨false, false⟩

/-- `database.GalleryImage` from `internal/database/d1.go`. -/
structure GalleryImage where
  id : String
  source : String
  sourceKey : String
  sourceURL : String
  sourcePostID : String
  sha256 : String
  orientation : String
  seq : Int
  r2Key : String
  width : Int
  height : Int
  bytes : Int
  mimeType : String
  publishedAt : Int
  collectedAt : Int
  status : String
deriving DecidableEq

/-- The Go zero value of `database.GalleryImage`. -/
def GalleryImage.zero : GalleryImage :=
  ⟨"", "", "", "", "", "", "", 0, "", 0, 0, 0, "", 0, 0, ""⟩

/-- `database.GalleryCounts`. -/
structure GalleryCounts where
  h : Int
  v : Int
deriving DecidableEq

/-- `gallery.PreparedImage` (processor output). -/
structure PreparedImage where
  WebPBytes : List Nat
  SHA256 : String
  Width : Int
  Height : Int
  Orientation : String
  Bytes : Int
  ContentType : String
  OriginalMIME : String
deriving DecidableEq

/-- `gallery.HybridWebPProcessor` configuration fields. -/
structure HybridWebPProcessor where
  CWebPBinary : String
  Quality : Int
  Method : Int
  PassThroughWebP : Bool
deriving DecidableEq

/-- `gallery.NewHybridWebPProcessor`: the default processor configuration. -/
def NewHybridWebPProcessor : HybridWebPProcessor :=
  ⟨"cwebp", 84, 4, true⟩

/-- `database.normalizeOrientation`. -/
def normalizeOrientation (v : String) : String :=
  let v := goLower (goTrim v)
  if v = "h" ∨ v = "v" then v else ""

/-- The contents of the D1 metadata store: the `gallery_images` rows and the
`ingest_blocklist` keys. -/
structure DBState where
  records : List GalleryImage
  blocklist : List String
deriving DecidableEq

/-- Value computed by `database.Client.IsBlocked` when the query succeeds. -/
def isBlockedVal (st : DBState) (key : String) : Bool :=
  let k := goTrim key
  if k = "" then false else st.blocklist.contains k

/-- Value computed by `database.Client.ExistsGallerySourceKey` when the query
succeeds. -/
def existsSourceKeyVal (st : DBState) (sourceKey : String) : Bool :=
  let k := goTrim sourceKey
  if k = "" then false else st.records.any (fun r => r.sourceKey = k)

/-- Value computed by `database.Client.ExistsGallerySHA256` when the query
succeeds (the query key is trimmed and lower-cased first). -/
def existsSHA256Val (st : DBState) (sha : String) : Bool :=
  let s := goLower (goTrim sha)
  if s = "" then false else st.records.any (fun r => r.sha256 = s)

/-- `COALESCE(MAX(seq), 0)` over the rows of one orientation, as computed by
the SQL in `database.Client.NextGallerySeq`. -/
def maxSeqOrZero (st : DBState) (o : String) : Int :=
  match (st.records.filter (fun r => r.orientation = o)).map (fun r => r.seq) with
  | [] => 0
  | x :: xs => xs.foldl (fun a b => max a b) x

/-- Environment a `StoreToGallery` call runs against.  Each remote query of
the metadata/blob stores may be made to fail (`some errorMessage`); `prepare`
is the behaviour of the configured `ImageProcessor`; `now`/`nowNano` model
`time.Now`.  The compensating delete's error is discarded by the service
(`_ =`), so `deleteErr` is never read. -/
structure Env where
  isBlockedErr : Option String
  existsSrc1Err : Option String
  existsHash1Err : Option String
  existsSrc2Err : Option String
  existsHash2Err : Option String
  nextSeqErr : Option String
  putErr : Option String
  insertErr : Option String
  countErr : Option String
  deleteErr : Option String
  prepare : List Nat → Except String PreparedImage
  now : Int
  nowNano : Int

/-- `database.Client.NextGallerySeq`: normalize the orientation, then run
`SELECT COALESCE(MAX(seq), 0) + 1` and clamp results below 1 up to 1.
(The Go `len(rows) == 0` branch is unreachable for a successful aggregate
query and is absorbed by the success case.) -/
def nextGallerySeqVal (env : Env) (st : DBState) (orientation : String) :
    Except String Int :=
  let o := normalizeOrientation orientation
  if o = "" then .error "invalid orientation"
  else
    match env.nextSeqErr with
    | some e => .error e
    | none =>
      let next := maxSeqOrZero st o + 1
      .ok (if next < 1 then 1 else next)

/-- The post-validation defaults `InsertGalleryImage` applies before the
INSERT: mime type, collection time, status (d1.go lines 263-271). -/
def defaultedImage (env : Env) (img1 : GalleryImage) : GalleryImage :=
  let img := if img1.mimeType = "" then { img1 with mimeType := "image/webp" } else img1
  let img := if img.collectedAt ≤ 0 then { img with collectedAt := env.now } else img
  if img.status = "" then { img with status := "active" } else img

/-- `defaultedImage` does not change the content hash. -/
theorem defaultedImage_sha256 (env : Env) (img1 : GalleryImage) :
    (defaultedImage env img1).sha256 = img1.sha256 := by
  simp only [defaultedImage]
  split <;> split <;> split <;> rfl

/-- `database.Client.InsertGalleryImage`: client-side normalization and
validation, then the remote INSERT, whose UNIQUE constraints
(`id` primary key, `source_key`, `sha256`, `r2_key`, `(orientation, seq)`
from the schema in `EnsureSchema`) act as a backstop. -/
def insertGalleryImageVal (env : Env) (st : DBState) (img0 : GalleryImage) :
    Except String DBState :=
  let img : GalleryImage := { img0 with
    source := goTrim img0.source
    sourceKey := goTrim img0.sourceKey
    sourceURL := goTrim img0.sourceURL
    sourcePostID := goTrim img0.sourcePostID
    sha256 := goLower (goTrim img0.sha256)
    orientation := normalizeOrientation img0.orientation
    r2Key := goTrim img0.r2Key
    mimeType := goTrim img0.mimeType
    status := goTrim img0.status }
  let img := if img.id = "" then { img with id := img.sourceKey } else img
  if img.orientation = "" then .error "invalid orientation"
  else if img.sourceKey = "" then .error "source_key is required"
  else if img.sha256 = "" then .error "sha256 is required"
  else if img.seq < 1 then .error "seq must be >= 1"
  else if img.r2Key = "" then .error "r2_key is required"
  else
    let img := defaultedImage env img
    match env.insertErr with
    | some e => .error e
    | none =>
      if st.records.any (fun r =>
          r.id = img.id ∨ r.sourceKey = img.sourceKey ∨ r.sha256 = img.sha256 ∨
          r.r2Key = img.r2Key ∨ (r.orientation = img.orientation ∧ r.seq = img.seq)) then
        .error "UNIQUE constraint failed"
      else
        .ok { st with records := st.records ++ [img] }

/-- Value computed by `database.Client.CountGalleryActive` when the query
succeeds: group the active rows by their raw orientation value, then assign
each group's count to the `h` or `v` slot of the normalized orientation. -/
def countGalleryActiveVal (st : DBState) : GalleryCounts :=
  let active := st.records.filter (fun r => r.status = "active")
  let groups := (active.map (fun r => r.orientation)).dedup
  groups.foldl (fun counts o =>
    let c : Int := (active.filter (fun r => r.orientation = o)).length
    match normalizeOrientation o with
    | "h" => { counts with h := c }
    | "v" => { counts with v := c }
    | _ => counts) ⟨0, 0⟩

/-- Environment of the image processor: the Go `image` package's
`DecodeConfig` (width, height, declared format) and `Decode` (an opaque
decoded-raster handle), `http.DetectContentType`, the out-of-process `cwebp`
invocation (binary name, decoded image, quality, method), and the SHA-256
lowercase-hex fingerprint function (`crypto/sha256` + `encoding/hex`). -/
structure PrepEnv where
  detect : List Nat → String
  decodeConfig : List Nat → Except String (Int × Int × String)
  decode : List Nat → Except String Nat
  cwebp : String → Nat → Int → Int → Except String (List Nat)
  hashHex : List Nat → String

/-- Effective `cwebp` binary from `encodeWithCWebP`: the configured binary
when non-blank, else the default `cwebp`. -/
def effBinary (b : String) : String :=
  if goTrim b = "" then "cwebp" else goTrim b

/-- Effective quality from `encodeWithCWebP`: the configured value when it
lies in `[0, 100]`, else the default `84`. -/
def effQuality (q : Int) : Int :=
  if 0 ≤ q ∧ q ≤ 100 then q else 84

/-- Effective method from `encodeWithCWebP`: the configured value when it
lies in `[0, 6]`, else the default `4`. -/
def effMethod (m : Int) : Int :=
  if 0 ≤ m ∧ m ≤ 6 then m else 4

/-- `HybridWebPProcessor.encodeWithCWebP`: resolve binary/quality/method,
run the external encoder (the temp-dir and temp-PNG plumbing is folded into
the environment call), wrap its failure text, and reject empty output. -/
def encodeWithCWebP (penv : PrepEnv) (p : HybridWebPProcessor) (img : Nat) :
    Except String (List Nat) :=
  match penv.cwebp (effBinary p.CWebPBinary) img (effQuality p.Quality) (effMethod p.Method) with
  | .error msg => .error ("cwebp failed: " ++ msg)
  | .ok out =>
    if out.length = 0 then .error "cwebp produced empty output" else .ok out

/-- Processor-side effect trace entries: a full raster decode
(`image.Decode`) and an external-encoder invocation. -/
inductive PEvent where
  | decodeFull : PEvent
  | encodeCall : PEvent
deriving DecidableEq

/-- `HybridWebPProcessor.Prepare` (with the nil-receiver default applied by
the caller): sniff MIME, decode structural config, validate dimensions,
classify orientation; pass WebP input through unchanged, otherwise fully
decode, re-encode via `cwebp`, and refresh config and orientation from the
encoder's output bytes; finally fingerprint the canonical bytes. -/
def Prepare (penv : PrepEnv) (p : HybridWebPProcessor) (data : List Nat) :
    Except String PreparedImage × List PEvent :=
  if data.length = 0 then (.error "empty image data", [])
  else
    let mime := goLower (goTrim (penv.detect data))
    match penv.decodeConfig data with
    | .error e => (.error ("decode image config: " ++ e), [])
    | .ok (w, h, format) =>
      if w ≤ 0 ∨ h ≤ 0 then (.error "invalid image size", [])
      else
        let orientation := if w < h then "v" else "h"
        if p.PassThroughWebP ∧ (format = "webp" ∨ strContains mime "webp" = true) then
          (.ok ⟨data, penv.hashHex data, w, h, orientation,
                (data.length : Int), "image/webp", mime⟩, [])
        else
          match penv.decode data with
          | .error e => (.error ("decode image: " ++ e), [.decodeFull])
          | .ok img =>
            match encodeWithCWebP penv p img with
            | .error e => (.error e, [.decodeFull, .encodeCall])
            | .ok out =>
              match penv.decodeConfig out with
              | .error e =>
                (.error ("decode webp output config: " ++ e), [.decodeFull, .encodeCall])
              | .ok (w2, h2, _) =>
                let orientation2 := if w2 < h2 then "v" else "h"
                (.ok ⟨out, penv.hashHex out, w2, h2, orientation2,
                      (out.length : Int), "image/webp", mime⟩, [.decodeFull, .encodeCall])

/-- `gallery.StoreInput`. -/
structure StoreInput where
  id : String
  source : String
  sourceKey : String
  sourceURL : String
  sourcePostID : String
  rawData : List Nat
  publishedAt : Int
  collectedAt : Int
deriving DecidableEq

/-- `gallery.StoreResult`. -/
structure StoreResult where
  added : Bool
  skipReason : String
  image : GalleryImage
  counts : GalleryCounts
  contentHash : String
deriving DecidableEq

/-- The Go zero value of `gallery.StoreResult`. -/
def StoreResult.zero : StoreResult :=
  ⟨false, "", GalleryImage.zero, ⟨0, 0⟩, ""⟩

/-- `gallery.Service` configuration: whether the receiver's `DB`, `Store`
and `Processor` fields are non-nil (the store/processor behaviour itself
lives in `Env`).  A nil receiver is `Option.none` at the call site. -/
structure Service where
  hasDB : Bool
  hasStore : Bool
  hasProcessor : Bool
deriving DecidableEq

/-- Trace of the remote calls `StoreToGallery` performed, in order.  The
compensating `deleteObject` records the context it was issued on. -/
inductive Event where
  | isBlocked (key : String) : Event
  | existsSourceKey (key : String) : Event
  | existsSHA256 (sha : String) : Event
  | prepareCall : Event
  | nextSeq (orientation : String) : Event
  | putObject (key : String) (data : List Nat) (contentType : String) : Event
  | insertImage (img : GalleryImage) : Event
  | deleteObject (ctx : Ctx) (key : String) : Event
  | countActive : Event
deriving DecidableEq

/-- `gallery.pickID`: caller id, else source key, else a 24-char prefix of
the fingerprint, else a time-derived fallback. -/
def pickID (env : Env) (preferred sourceKey sha : String) : String :=
  let p := goTrim preferred
  if p ≠ "" then p
  else
    let sk := goTrim sourceKey
    if sk ≠ "" then sk
    else
      let s := goTrim sha
      if s.length > 24 then "sha256_" ++ strTake s 24
      else if s ≠ "" then "sha256_" ++ s
      else "img_" ++ toString env.nowNano

/-- Result triple of one `StoreToGallery` call: the Go
`(StoreResult, error)` pair (an `error` return carries the zero
`StoreResult`, so it is an `Except`), the metadata-store state after the
call, and the trace of remote calls. -/
abbrev StoreOut := Except String StoreResult × DBState × List Event

/-- Step 8 tail of `StoreToGallery` (service.go lines 167-187): persist the
D1 record; on failure fire the best-effort compensating delete on
`context.Background()` (its error is discarded) and wrap the insert error;
on success run the aggregate count query, whose failure degrades the
response to zero counts instead of failing the call. -/
def storePhaseInsert (env : Env) (st : DBState) (img : GalleryImage)
    (sha r2Key : String) : StoreOut :=
  match insertGalleryImageVal env st img with
  | .error e =>
    (.error ("insert gallery image: " ++ e), st,
      [Event.insertImage img, Event.deleteObject Ctx.background r2Key])
  | .ok st' =>
    match env.countErr with
    | some _ =>
      (.ok { StoreResult.zero with added := true, image := img, contentHash := sha },
        st', [Event.insertImage img, Event.countActive])
    | none =>
      (.ok { StoreResult.zero with
              added := true
              image := img
              counts := countGalleryActiveVal st'
              contentHash := sha },
        st', [Event.insertImage img, Event.countActive])

/-- The `database.GalleryImage` record assembled by `StoreToGallery`
(service.go lines 144-165) before the insert: id via `pickID`,
`collected_at` defaulting to the current time when non-positive. -/
def buildImage (env : Env) (inp : StoreInput) (prepared : PreparedImage)
    (seq : Int) (r2Key : String) : GalleryImage :=
  { id := pickID env inp.id inp.sourceKey prepared.SHA256
    source := inp.source
    sourceKey := inp.sourceKey
    sourceURL := inp.sourceURL
    sourcePostID := inp.sourcePostID
    sha256 := prepared.SHA256
    orientation := prepared.Orientation
    seq := seq
    r2Key := r2Key
    width := prepared.Width
    height := prepared.Height
    bytes := prepared.Bytes
    mimeType := prepared.ContentType
    publishedAt := inp.publishedAt
    collectedAt := if inp.collectedAt ≤ 0 then env.now else inp.collectedAt
    status := "active" }

/-- Steps 7-8 of `StoreToGallery` (lines 137-165): derive the R2 key from
orientation and seq, upload the canonical bytes (an upload failure aborts
with the wrapped error and persists nothing), build the record
(`collected_at` defaulting to now, id via `pickID`) and hand off to the
insert phase. -/
def storePhaseUpload (env : Env) (st : DBState) (inp : StoreInput)
    (prepared : PreparedImage) (seq : Int) : StoreOut :=
  let r2Key := "ri/" ++ prepared.Orientation ++ "/" ++ toString seq ++ ".webp"
  match env.putErr with
  | some e =>
    (.error ("upload r2 " ++ r2Key ++ ": " ++ e), st,
      [Event.putObject r2Key prepared.WebPBytes prepared.ContentType])
  | none =>
    let img := buildImage env inp prepared seq r2Key
    let rest := storePhaseInsert env st img prepared.SHA256 r2Key
    (rest.1, rest.2.1,
      Event.putObject r2Key prepared.WebPBytes prepared.ContentType :: rest.2.2)

/-- Steps 5-7 of `StoreToGallery` (lines 111-137): inside the
per-orientation critical section, re-check source-key and fingerprint
dedup (race-labelled skip reasons), then allocate the next sequence
number. -/
def storePhaseLocked (env : Env) (st : DBState) (inp : StoreInput)
    (prepared : PreparedImage) : StoreOut :=
  match env.existsSrc2Err with
  | some e => (.error e, st, [Event.existsSourceKey inp.sourceKey])
  | none =>
    if existsSourceKeyVal st inp.sourceKey then
      (.ok { StoreResult.zero with
              skipReason := "duplicate_source_race"
              contentHash := prepared.SHA256 }, st,
        [Event.existsSourceKey inp.sourceKey])
    else
      match env.existsHash2Err with
      | some e =>
        (.error e, st,
          [Event.existsSourceKey inp.sourceKey, Event.existsSHA256 prepared.SHA256])
      | none =>
        if existsSHA256Val st prepared.SHA256 then
          (.ok { StoreResult.zero with
                  skipReason := "duplicate_hash_race"
                  contentHash := prepared.SHA256 }, st,
            [Event.existsSourceKey inp.sourceKey, Event.existsSHA256 prepared.SHA256])
        else
          match nextGallerySeqVal env st prepared.Orientation with
          | .error e =>
            (.error e, st,
              [Event.existsSourceKey inp.sourceKey, Event.existsSHA256 prepared.SHA256,
               Event.nextSeq prepared.Orientation])
          | .ok seq =>
            let rest := storePhaseUpload env st inp prepared seq
            (rest.1, rest.2.1,
              Event.existsSourceKey inp.sourceKey :: Event.existsSHA256 prepared.SHA256 ::
                Event.nextSeq prepared.Orientation :: rest.2.2)

/-- Step 4 of `StoreToGallery` (lines 102-109): pre-lock content-level
dedup on the fingerprint, then enter the critical section. -/
def storePhaseHashCheck (env : Env) (st : DBState) (inp : StoreInput)
    (prepared : PreparedImage) : StoreOut :=
  match env.existsHash1Err with
  | some e => (.error e, st, [Event.existsSHA256 prepared.SHA256])
  | none =>
    if existsSHA256Val st prepared.SHA256 then
      (.ok { StoreResult.zero with
              skipReason := "duplicate_hash"
              contentHash := prepared.SHA256 }, st,
        [Event.existsSHA256 prepared.SHA256])
    else
      let rest := storePhaseLocked env st inp prepared
      (rest.1, rest.2.1, Event.existsSHA256 prepared.SHA256 :: rest.2.2)

/-- The field trimming and `source` defaulting `StoreToGallery` applies to
its input before validation (service.go lines 62-70). -/
def trimInput (inp0 : StoreInput) : StoreInput :=
  { inp0 with
    source := if goTrim inp0.source = "" then "unknown" else goTrim inp0.source
    sourceKey := goTrim inp0.sourceKey
    sourceURL := goTrim inp0.sourceURL
    sourcePostID := goTrim inp0.sourcePostID
    id := goTrim inp0.id }

/-- Projection facts of `trimInput`, used to rewrite without unfolding it. -/
theorem trimInput_sourceKey (inp : StoreInput) :
    (trimInput inp).sourceKey = goTrim inp.sourceKey := rfl

/-- The raw bytes are not affected by input trimming. -/
theorem trimInput_rawData (inp : StoreInput) :
    (trimInput inp).rawData = inp.rawData := rfl

/-- `gallery.Service.StoreToGallery` (service.go lines 57-188), sequential
model: nil-configuration guard, input trimming and validation, blocklist
check, pre-lock source dedup, processor `Prepare`, then the hash-check /
locked / upload / insert phases.  The caller's `ctx` is threaded to the
remote calls via `env`; the compensating delete alone ignores it. -/
def storeToGallery (s : Option Service) (env : Env) (_ctx : Ctx)
    (st : DBState) (inp0 : StoreInput) : StoreOut :=
  match s with
  | none => (.error "gallery service not fully configured", st, [])
  | some svc =>
    if svc.hasDB = false ∨ svc.hasStore = false ∨ svc.hasProcessor = false then
      (.error "gallery service not fully configured", st, [])
    else
      let inp : StoreInput := trimInput inp0
      if inp.sourceKey = "" then (.error "source_key is required", st, [])
      else if inp.rawData.length = 0 then (.error "raw image data is empty", st, [])
      else
        match env.isBlockedErr with
        | some e => (.error e, st, [Event.isBlocked inp.sourceKey])
        | none =>
          if isBlockedVal st inp.sourceKey then
            (.ok { StoreResult.zero with skipReason := "blocked_source" }, st,
              [Event.isBlocked inp.sourceKey])
          else
            match env.existsSrc1Err with
            | some e =>
              (.error e, st,
                [Event.isBlocked inp.sourceKey, Event.existsSourceKey inp.sourceKey])
            | none =>
              if existsSourceKeyVal st inp.sourceKey then
                (.ok { StoreResult.zero with skipReason := "duplicate_source" }, st,
                  [Event.isBlocked inp.sourceKey, Event.existsSourceKey inp.sourceKey])
              else
                match env.prepare inp.rawData with
                | .error e =>
                  (.error e, st,
                    [Event.isBlocked inp.sourceKey, Event.existsSourceKey inp.sourceKey,
                     Event.prepareCall])
                | .ok prepared =>
                  let rest := storePhaseHashCheck env st inp prepared
                  (rest.1, rest.2.1,
                    Event.isBlocked inp.sourceKey :: Event.existsSourceKey inp.sourceKey ::
                      Event.prepareCall :: rest.2.2)

/-- Sequential run of a list of `StoreToGallery` calls against one service
instance, each call with its own environment, caller context and input,
threading the metadata-store state. -/
def runStores (s : Option Service) (calls : List (Env × Ctx × StoreInput))
    (st : DBState) : List (Except String StoreResult) × DBState :=
  match calls with
  | [] => ([], st)
  | (env, ctx, inp) :: rest =>
    let out := storeToGallery s env ctx st inp
    let tail := runStores s rest out.2.1
    (out.1 :: tail.1, tail.2)

/-- Whether a call result reports a successful insert whose fingerprint
normalizes (as the store's `sha256` column does) to `F`. -/
def addedWithHash (F : String) (r : Except String StoreResult) : Bool :=
  match r with
  | .ok res => res.added && goLower (goTrim res.contentHash) = F
  | .error _ => false

/-- Whether a record with `sha256 = F` exists in the metadata store. -/
def hasSha (st : DBState) (F : String) : Bool :=
  st.records.any (fun r => r.sha256 = F)

/-- A small fixed horizontal WebP preparation used by the fixtures. -/
def prepWebP : PreparedImage :=
  ⟨[7], "ff", 2, 1, "h", 1, "image/webp", "image/webp"⟩

/-- All-success environment fixture: every remote call succeeds and the
processor returns `prepWebP`. -/
def envOk : Env :=
  { isBlockedErr := none, existsSrc1Err := none, existsHash1Err := none,
    existsSrc2Err := none, existsHash2Err := none, nextSeqErr := none,
    putErr := none, insertErr := none, countErr := none, deleteErr := none,
    prepare := fun _ => .ok prepWebP,
    now := 100, nowNano := 5 }

/-- Fully configured service fixture. -/
def svcFull : Service := ⟨true, true, true⟩

/-- Minimal valid input fixture: source key `k`, one raw byte. -/
def inpK : StoreInput := ⟨"", "", "k", "", "", [7], 0, 0⟩

/-- Empty metadata store fixture. -/
def stEmpty : DBState := ⟨[], []⟩

/-- C10: if the service receiver is nil, or its DB, Store or Processor field
is nil, `StoreToGallery` returns the "not fully configured" error before any
input validation or store I/O: the result is the configuration error for
every input (even invalid ones), the store state is untouched, and the call
trace is empty. -/
theorem storeToGallery_nil_guard (s : Option Service) (env : Env) (ctx : Ctx)
    (st : DBState) (inp : StoreInput)
    (h : s = none ∨ ∃ svc, s = some svc ∧
      (svc.hasDB = false ∨ svc.hasStore = false ∨ svc.hasProcessor = false)) :
    storeToGallery s env ctx st inp =
      (.error "gallery service not fully configured", st, []) := by
  rcases h with h | ⟨svc, rfl, h⟩
  · subst h; rfl
  · simp only [storeToGallery]
    rw [if_pos h]

/-- Witness for C10: a service whose DB field is nil rejects even an input
with an empty source key with the configuration error, doing nothing. -/
theorem storeToGallery_nil_guard_witness :
    storeToGallery (some ⟨false, true, true⟩) envOk Ctx.background stEmpty
        ⟨"", "", "", "", "", [], 0, 0⟩ =
      (.error "gallery service not fully configured", stEmpty, []) :=
  storeToGallery_nil_guard (some ⟨false, true, true⟩) envOk Ctx.background stEmpty
    ⟨"", "", "", "", "", [], 0, 0⟩ (Or.inr ⟨⟨false, true, true⟩, rfl, Or.inl rfl⟩)

/-- C5: for a fully configured service, a non-empty source key that is on
the blocklist, and non-empty raw bytes, `StoreToGallery` returns
`added:false` with reason `blocked_source` and a nil error; the only remote
call in the trace is the blocklist query — in particular the processor is
never invoked (the environment's `prepare` is unconstrained, so the raw
bytes may well be undecodable), and no upload or insert happens. -/
theorem storeToGallery_blocked_precedence (svc : Service) (env : Env)
    (ctx : Ctx) (st : DBState) (inp : StoreInput)
    (hdb : svc.hasDB = true) (hst : svc.hasStore = true)
    (hpr : svc.hasProcessor = true)
    (hkey : goTrim inp.sourceKey ≠ "")
    (hraw : inp.rawData ≠ [])
    (herr : env.isBlockedErr = none)
    (hblk : isBlockedVal st (goTrim inp.sourceKey) = true) :
    storeToGallery (some svc) env ctx st inp =
      (.ok { StoreResult.zero with skipReason := "blocked_source" }, st,
        [Event.isBlocked (goTrim inp.sourceKey)]) := by
  simp [storeToGallery, trimInput, hdb, hst, hpr, hkey, herr, hblk, hraw]

/-- Witness for C5: a blocked source key is skipped with `blocked_source`
even though the environment's processor would reject the bytes. -/
theorem storeToGallery_blocked_precedence_witness :
    storeToGallery (some svcFull)
        { envOk with prepare := fun _ => .error "decode image config: bad" }
        Ctx.background ⟨[], ["k"]⟩ inpK =
      (.ok { StoreResult.zero with skipReason := "blocked_source" }, ⟨[], ["k"]⟩,
        [Event.isBlocked "k"]) :=
  storeToGallery_blocked_precedence svcFull
    { envOk with prepare := fun _ => .error "decode image config: bad" }
    Ctx.background ⟨[], ["k"]⟩ inpK rfl rfl rfl (by decide) (by decide) rfl (by decide)

/-- The seed of a left fold by `max` bounds the fold from below. -/
theorem le_foldlMax (xs : List Int) (x : Int) :
    x ≤ xs.foldl (fun a b => max a b) x := by
  induction xs generalizing x with
  | nil => exact le_refl x
  | cons a as ih =>
    exact le_trans (le_max_left x a) (ih (max x a))

/-- Every member of the list bounds a left fold by `max` from below. -/
theorem mem_le_foldlMax (xs : List Int) (x y : Int) (hy : y ∈ xs) :
    y ≤ xs.foldl (fun a b => max a b) x := by
  induction xs generalizing x with
  | nil => cases hy
  | cons a as ih =>
    rw [List.foldl_cons]
    rcases List.mem_cons.mp hy with rfl | hy'
    · exact le_trans (le_max_right x y) (le_foldlMax as (max x y))
    · exact ih (max x a) hy'

/-- A left fold by `max` is the seed or one of the list elements. -/
theorem foldlMax_cases (xs : List Int) (x : Int) :
    xs.foldl (fun a b => max a b) x = x ∨ xs.foldl (fun a b => max a b) x ∈ xs := by
  induction xs generalizing x with
  | nil => exact Or.inl rfl
  | cons a as ih =>
    rcases ih (max x a) with h | h
    · rcases max_choice x a with hx | hx
      · exact Or.inl (by rw [List.foldl_cons, h, hx])
      · exact Or.inr (by rw [List.foldl_cons, h, hx]; exact List.mem_cons_self a as)
    · exact Or.inr (List.mem_cons_of_mem a h)

/-- Every record of the orientation bounds `maxSeqOrZero` from below. -/
theorem le_maxSeqOrZero (st : DBState) (o : String) (r : GalleryImage)
    (hr : r ∈ st.records) (ho : r.orientation = o) :
    r.seq ≤ maxSeqOrZero st o := by
  have hmem : r.seq ∈ (st.records.filter
      (fun r => r.orientation = o)).map (fun r => r.seq) :=
    List.mem_map_of_mem _ (List.mem_filter.mpr ⟨hr, by simp [ho]⟩)
  unfold maxSeqOrZero
  cases hml : (st.records.filter (fun r => r.orientation = o)).map (fun r => r.seq) with
  | nil => rw [hml] at hmem; cases hmem
  | cons x xs =>
    rw [hml] at hmem
    rcases List.mem_cons.mp hmem with rfl | hy
    · exact le_foldlMax xs r.seq
    · exact mem_le_foldlMax xs x r.seq hy

/-- `maxSeqOrZero` is zero or the `seq` of a record of that orientation. -/
theorem maxSeqOrZero_cases (st : DBState) (o : String) :
    maxSeqOrZero st o = 0 ∨
      ∃ r, r ∈ st.records ∧ r.orientation = o ∧ maxSeqOrZero st o = r.seq := by
  unfold maxSeqOrZero
  cases hml : (st.records.filter (fun r => r.orientation = o)).map (fun r => r.seq) with
  | nil => exact Or.inl rfl
  | cons x xs =>
    refine Or.inr ?_
    have hmem : xs.foldl (fun a b => max a b) x ∈ x :: xs := by
      rcases foldlMax_cases xs x with h | h
      · rw [h]; exact List.mem_cons_self x xs
      · exact List.mem_cons_of_mem x h
    rw [← hml] at hmem
    rcases List.mem_map.mp hmem with ⟨r, hrf, hrs⟩
    have hrc := List.mem_filter.mp hrf
    exact ⟨r, hrc.1, by simpa using hrc.2, hrs.symm⟩

/-- C2: for orientation `h` or `v`, when the aggregate query succeeds and
every stored record of that orientation has `seq ≥ 1` (as the insert path
enforces), `NextGallerySeq` returns `1 + max(existing seq)`: a value that is
at least 1, strictly greater than every existing seq of the orientation,
minimal among positive integers with that property, and equal to 1 when the
orientation has no records. -/
theorem nextGallerySeq_spec (env : Env) (st : DBState) (o : String)
    (ho : o = "h" ∨ o = "v") (herr : env.nextSeqErr = none)
    (hpos : ∀ r ∈ st.records, r.orientation = o → 1 ≤ r.seq) :
    ∃ n, nextGallerySeqVal env st o = .ok n ∧
      n = maxSeqOrZero st o + 1 ∧
      1 ≤ n ∧
      (∀ r ∈ st.records, r.orientation = o → r.seq < n) ∧
      (∀ m : Int, 1 ≤ m → (∀ r ∈ st.records, r.orientation = o → r.seq < m) → n ≤ m) ∧
      ((∀ r ∈ st.records, r.orientation ≠ o) → n = 1) := by
  have hno : normalizeOrientation o = o := by rcases ho with rfl | rfl <;> rfl
  have hne : ¬(o = "") := by rcases ho with rfl | rfl <;> simp
  have hmax0 : 0 ≤ maxSeqOrZero st o := by
    rcases maxSeqOrZero_cases st o with h | ⟨r, hr, hro, hrs⟩
    · omega
    · have := hpos r hr hro; omega
  refine ⟨maxSeqOrZero st o + 1, ?_, rfl, by omega, ?_, ?_, ?_⟩
  · simp only [nextGallerySeqVal, hno, herr]
    rw [if_neg hne]
    have : ¬(maxSeqOrZero st o + 1 < 1) := by omega
    simp [this]
  · intro r hr hro
    have := le_maxSeqOrZero st o r hr hro
    omega
  · intro m hm hlt
    rcases maxSeqOrZero_cases st o with h | ⟨r, hr, hro, hrs⟩
    · omega
    · have := hlt r hr hro
      omega
  · intro hnone
    have : maxSeqOrZero st o = 0 := by
      rcases maxSeqOrZero_cases st o with h | ⟨r, hr, hro, _⟩
      · exact h
      · exact absurd hro (hnone r hr)
    omega

/-- Witness for C2: with records at seq 2 and 5 for `h` (and one `v`
record), the next `h` sequence is 6. -/
theorem nextGallerySeq_spec_witness :
    ∃ n, nextGallerySeqVal envOk
        ⟨[{ GalleryImage.zero with orientation := "h", seq := 2 },
          { GalleryImage.zero with orientation := "v", seq := 9 },
          { GalleryImage.zero with orientation := "h", seq := 5 }], []⟩ "h" = .ok n ∧
      n = maxSeqOrZero ⟨[{ GalleryImage.zero with orientation := "h", seq := 2 },
          { GalleryImage.zero with orientation := "v", seq := 9 },
          { GalleryImage.zero with orientation := "h", seq := 5 }], []⟩ "h" + 1 ∧
      1 ≤ n ∧
      (∀ r ∈ [{ GalleryImage.zero with orientation := "h", seq := 2 },
          { GalleryImage.zero with orientation := "v", seq := 9 },
          { GalleryImage.zero with orientation := "h", seq := 5 }],
        r.orientation = "h" → r.seq < n) ∧
      (∀ m : Int, 1 ≤ m → (∀ r ∈ [{ GalleryImage.zero with orientation := "h", seq := 2 },
          { GalleryImage.zero with orientation := "v", seq := 9 },
          { GalleryImage.zero with orientation := "h", seq := 5 }],
        r.orientation = "h" → r.seq < m) → n ≤ m) ∧
      ((∀ r ∈ [{ GalleryImage.zero with orientation := "h", seq := 2 },
          { GalleryImage.zero with orientation := "v", seq := 9 },
          { GalleryImage.zero with orientation := "h", seq := 5 }],
        r.orientation ≠ "h") → n = 1) :=
  nextGallerySeq_spec envOk
    ⟨[{ GalleryImage.zero with orientation := "h", seq := 2 },
      { GalleryImage.zero with orientation := "v", seq := 9 },
      { GalleryImage.zero with orientation := "h", seq := 5 }], []⟩ "h"
    (Or.inl rfl) rfl (by decide)

/-- C8 counterexample: `encodeWithCWebP` does not clamp an out-of-range
configured value to the nearest end of the valid range — quality 150 is
invoked as the default 84, not as 100, and method 9 as the default 4, not
as 6. -/
theorem cwebp_nearest_clamp_counterexample :
    effQuality 150 = 84 ∧ effQuality 150 ≠ 100 ∧
    effMethod 9 = 4 ∧ effMethod 9 ≠ 6 := by decide

/-- C8 (amended): the quality and method passed by `encodeWithCWebP` to the
external encoder are each independently defaulted (84 and 4): a configured
value inside the valid range is used as-is, a configured value outside it
falls back to the default, so the invoked quality always lies in `[0, 100]`
and the invoked method in `[0, 6]`. -/
theorem cwebp_params_spec (q m : Int) :
    (0 ≤ effQuality q ∧ effQuality q ≤ 100) ∧
    (0 ≤ effMethod m ∧ effMethod m ≤ 6) ∧
    ((0 ≤ q ∧ q ≤ 100) → effQuality q = q) ∧
    (¬(0 ≤ q ∧ q ≤ 100) → effQuality q = 84) ∧
    ((0 ≤ m ∧ m ≤ 6) → effMethod m = m) ∧
    (¬(0 ≤ m ∧ m ≤ 6) → effMethod m = 4) := by
  refine ⟨⟨?_, ?_⟩, ⟨?_, ?_⟩, ?_, ?_, ?_, ?_⟩ <;> simp only [effQuality, effMethod] <;>
    split <;> omega

/-- Witness for C8: in-range and out-of-range instantiations of the
parameter defaulting. -/
theorem cwebp_params_spec_witness :
    (0 ≤ effQuality 150 ∧ effQuality 150 ≤ 100) ∧ effQuality 150 = 84 ∧
    effMethod 3 = 3 :=
  ⟨(cwebp_params_spec 150 3).1,
   (cwebp_params_spec 150 3).2.2.2.1 (by decide),
   (cwebp_params_spec 150 3).2.2.2.2.1 (by decide)⟩

/-- C4: on input that is already canonical WebP (the decoded format
signature is `webp`, or the sniffed MIME contains `webp`) and under the
default processor configuration (`PassThroughWebP` on), `Prepare` returns
exactly the input bytes as the canonical bytes, a fingerprint that is the
hash (modelled sha256 lowercase hex) of those exact bytes, `Bytes` equal to
their length — and its effect trace is empty: no full decode and no
external-encoder invocation. -/
theorem prepare_passthrough (penv : PrepEnv) (data : List Nat) (w h : Int)
    (fmt : String)
    (hne : data ≠ [])
    (hcfg : penv.decodeConfig data = .ok (w, h, fmt))
    (hw : 0 < w) (hh : 0 < h)
    (hwebp : fmt = "webp" ∨
      strContains (goLower (goTrim (penv.detect data))) "webp" = true) :
    Prepare penv NewHybridWebPProcessor data =
      (.ok ⟨data, penv.hashHex data, w, h, if w < h then "v" else "h",
            (data.length : Int), "image/webp",
            goLower (goTrim (penv.detect data))⟩, []) := by
  have hlen : ¬(data.length = 0) := by simpa using hne
  have hdim : ¬(w ≤ 0 ∨ h ≤ 0) := by omega
  simp only [Prepare, hcfg, hlen, if_false, ite_false]
  rw [if_neg hdim, if_pos ⟨rfl, hwebp⟩]

/-- Witness for C4: a concrete two-byte WebP-format input passes through
unchanged with an empty processor trace. -/
theorem prepare_passthrough_witness :
    Prepare { detect := fun _ => "image/webp",
              decodeConfig := fun _ => .ok (3, 2, "webp"),
              decode := fun _ => .error "unused",
              cwebp := fun _ _ _ _ => .error "unused",
              hashHex := fun bs => "h" ++ toString bs.length }
        NewHybridWebPProcessor [1, 2] =
      (.ok ⟨[1, 2], "h2", 3, 2, "h", 2, "image/webp", "image/webp"⟩, []) := by
  have := prepare_passthrough
    { detect := fun _ => "image/webp",
      decodeConfig := fun _ => .ok (3, 2, "webp"),
      decode := fun _ => .error "unused",
      cwebp := fun _ _ _ _ => .error "unused",
      hashHex := fun bs => "h" ++ toString bs.length }
    [1, 2] 3 2 "webp" (by decide) rfl (by decide) (by decide) (Or.inl rfl)
  simpa using this

/-- C6: every successfully prepared image is classified `v` exactly when
its height exceeds its width and `h` otherwise (ties to `h`), and its
width/height/orientation are the ones the config decoder reports for the
*returned* canonical bytes — on the pass-through path those are the input
bytes, on the re-encode path the encoder's output bytes, so the
re-derivation after a re-encode uses the same tie-break rule on the output. -/
theorem prepare_orientation (penv : PrepEnv) (p : HybridWebPProcessor)
    (data : List Nat) (pi : PreparedImage) (tr : List PEvent)
    (hok : Prepare penv p data = (.ok pi, tr)) :
    pi.Orientation = (if pi.Width < pi.Height then "v" else "h") ∧
    ∃ fmt, penv.decodeConfig pi.WebPBytes = .ok (pi.Width, pi.Height, fmt) := by
  unfold Prepare at hok
  by_cases h0 : data.length = 0
  · rw [if_pos h0] at hok; simp at hok
  · rw [if_neg h0] at hok
    cases hcfg : penv.decodeConfig data with
    | error e => rw [hcfg] at hok; dsimp only [] at hok; simp at hok
    | ok t =>
      obtain ⟨w, h, format⟩ := t
      rw [hcfg] at hok
      dsimp only [] at hok
      by_cases hdim : w ≤ 0 ∨ h ≤ 0
      · rw [if_pos hdim] at hok; simp at hok
      · rw [if_neg hdim] at hok
        by_cases hpass : p.PassThroughWebP = true ∧
            (format = "webp" ∨
              strContains (goLower (goTrim (penv.detect data))) "webp" = true)
        · rw [if_pos hpass] at hok
          simp only [Prod.mk.injEq, Except.ok.injEq] at hok
          obtain ⟨hpi, htr⟩ := hok
          subst hpi
          exact ⟨rfl, format, hcfg⟩
        · rw [if_neg hpass] at hok
          cases hdec : penv.decode data with
          | error e => rw [hdec] at hok; dsimp only [] at hok; simp at hok
          | ok img =>
            rw [hdec] at hok
            dsimp only [] at hok
            cases henc : encodeWithCWebP penv p img with
            | error e => rw [henc] at hok; dsimp only [] at hok; simp at hok
            | ok out =>
              rw [henc] at hok
              dsimp only [] at hok
              cases hcfg2 : penv.decodeConfig out with
              | error e => rw [hcfg2] at hok; dsimp only [] at hok; simp at hok
              | ok t2 =>
                obtain ⟨w2, h2, fmt2⟩ := t2
                rw [hcfg2] at hok
                dsimp only [] at hok
                simp only [Prod.mk.injEq, Except.ok.injEq] at hok
                obtain ⟨hpi, htr⟩ := hok
                subst hpi
                exact ⟨rfl, fmt2, hcfg2⟩

/-- Witness for C6: a square (tie) pass-through input is classified `h` and
its dimensions come from decoding the returned bytes. -/
theorem prepare_orientation_witness :
    (⟨[1], "h1", 4, 4, "h", 1, "image/webp", "image/webp"⟩ :
        PreparedImage).Orientation =
      (if (⟨[1], "h1", 4, 4, "h", 1, "image/webp", "image/webp"⟩ :
          PreparedImage).Width <
        (⟨[1], "h1", 4, 4, "h", 1, "image/webp", "image/webp"⟩ :
          PreparedImage).Height then "v" else "h") ∧
    ∃ fmt, ({ detect := fun _ => "image/webp",
              decodeConfig := fun _ => .ok (4, 4, "webp"),
              decode := fun _ => .error "unused",
              cwebp := fun _ _ _ _ => .error "unused",
              hashHex := fun bs => "h" ++ toString bs.length } :
        PrepEnv).decodeConfig
        (⟨[1], "h1", 4, 4, "h", 1, "image/webp", "image/webp"⟩ :
          PreparedImage).WebPBytes =
      .ok ((⟨[1], "h1", 4, 4, "h", 1, "image/webp", "image/webp"⟩ :
          PreparedImage).Width,
        (⟨[1], "h1", 4, 4, "h", 1, "image/webp", "image/webp"⟩ :
          PreparedImage).Height, fmt) :=
  prepare_orientation
    { detect := fun _ => "image/webp",
      decodeConfig := fun _ => .ok (4, 4, "webp"),
      decode := fun _ => .error "unused",
      cwebp := fun _ _ _ _ => .error "unused",
      hashHex := fun bs => "h" ++ toString bs.length }
    NewHybridWebPProcessor [1]
    ⟨[1], "h1", 4, 4, "h", 1, "image/webp", "image/webp"⟩ [] rfl

/-- Processor environment on which the config decode of the encoder's
output reports non-positive dimensions: the raw input `[1]` decodes as a
1×2 PNG, everything else (in particular the encoder output `[9]`) as a 0×0
WebP. -/
def penvBadOut : PrepEnv :=
  { detect := fun _ => "image/png"
    decodeConfig := fun bs => if bs = [1] then .ok (1, 2, "png") else .ok (0, 0, "webp")
    decode := fun _ => .ok 0
    cwebp := fun _ _ _ _ => .ok [9]
    hashHex := fun _ => "hh" }

/-- C7 counterexample: on the re-encode path `Prepare` refreshes width and
height from the encoder's output bytes without re-running the positivity
check, so a successful `Prepare` can return `Width = 0`: the claim that
every successful `Prepare` yields `Width > 0 ∧ Height > 0` fails on the
environment `penvBadOut`. -/
theorem prepare_positive_dims_counterexample :
    (Prepare penvBadOut NewHybridWebPProcessor [1]).1 =
      .ok ⟨[9], "hh", 0, 0, "h", 1, "image/webp", "image/png"⟩ ∧
    ¬(0 < (⟨[9], "hh", 0, 0, "h", 1, "image/webp", "image/png"⟩ :
        PreparedImage).Width) :=
  ⟨rfl, by decide⟩

/-- C7 (amended): `Prepare` fails with the invalid-dimensions error whenever
the initial config decode reports width ≤ 0 or height ≤ 0; a successful
`Prepare` returns positive width and height unconditionally on the
pass-through path (empty trace), and on the re-encode path whenever the
config decode of the encoder's output reports positive dimensions — the
code re-derives dimensions from the output bytes but does not re-validate
their positivity. -/
theorem prepare_positive_dims :
    (∀ (penv : PrepEnv) (p : HybridWebPProcessor) (data : List Nat)
        (w h : Int) (fmt : String),
      data ≠ [] → penv.decodeConfig data = .ok (w, h, fmt) → (w ≤ 0 ∨ h ≤ 0) →
      (Prepare penv p data).1 = .error "invalid image size") ∧
    (∀ (penv : PrepEnv) (p : HybridWebPProcessor) (data : List Nat)
        (pi : PreparedImage),
      Prepare penv p data = (.ok pi, []) → 0 < pi.Width ∧ 0 < pi.Height) ∧
    (∀ (penv : PrepEnv) (p : HybridWebPProcessor) (data : List Nat)
        (pi : PreparedImage) (tr : List PEvent),
      (∀ bs w h fmt, penv.decodeConfig bs = .ok (w, h, fmt) → 0 < w ∧ 0 < h) →
      Prepare penv p data = (.ok pi, tr) → 0 < pi.Width ∧ 0 < pi.Height) := by
  refine ⟨?_, ?_, ?_⟩
  · intro penv p data w h fmt hne hcfg hdim
    have hlen : ¬(data.length = 0) := by simpa using hne
    simp only [Prepare, hcfg, hlen, if_false, ite_false]
    rw [if_pos hdim]
  · intro penv p data pi hok
    unfold Prepare at hok
    by_cases h0 : data.length = 0
    · rw [if_pos h0] at hok; simp at hok
    · rw [if_neg h0] at hok
      cases hcfg : penv.decodeConfig data with
      | error e => rw [hcfg] at hok; dsimp only [] at hok; simp at hok
      | ok t =>
        obtain ⟨w, h, format⟩ := t
        rw [hcfg] at hok
        dsimp only [] at hok
        by_cases hdim : w ≤ 0 ∨ h ≤ 0
        · rw [if_pos hdim] at hok; simp at hok
        · rw [if_neg hdim] at hok
          by_cases hpass : p.PassThroughWebP = true ∧
              (format = "webp" ∨
                strContains (goLower (goTrim (penv.detect data))) "webp" = true)
          · rw [if_pos hpass] at hok
            simp only [Prod.mk.injEq, Except.ok.injEq] at hok
            obtain ⟨hpi, htr⟩ := hok
            subst hpi
            constructor <;> simp <;> omega
          · rw [if_neg hpass] at hok
            cases hdec : penv.decode data with
            | error e => rw [hdec] at hok; dsimp only [] at hok; simp at hok
            | ok img =>
              rw [hdec] at hok
              dsimp only [] at hok
              cases henc : encodeWithCWebP penv p img with
              | error e => rw [henc] at hok; dsimp only [] at hok; simp at hok
              | ok out =>
                rw [henc] at hok
                dsimp only [] at hok
                cases hcfg2 : penv.decodeConfig out with
                | error e => rw [hcfg2] at hok; dsimp only [] at hok; simp at hok
                | ok t2 =>
                  obtain ⟨w2, h2, fmt2⟩ := t2
                  rw [hcfg2] at hok
                  dsimp only [] at hok
                  simp only [Prod.mk.injEq, Except.ok.injEq] at hok
                  exact absurd hok.2 (by simp)
  · intro penv p data pi tr hgood hok
    unfold Prepare at hok
    by_cases h0 : data.length = 0
    · rw [if_pos h0] at hok; simp at hok
    · rw [if_neg h0] at hok
      cases hcfg : penv.decodeConfig data with
      | error e => rw [hcfg] at hok; dsimp only [] at hok; simp at hok
      | ok t =>
        obtain ⟨w, h, format⟩ := t
        rw [hcfg] at hok
        dsimp only [] at hok
        by_cases hdim : w ≤ 0 ∨ h ≤ 0
        · rw [if_pos hdim] at hok; simp at hok
        · rw [if_neg hdim] at hok
          by_cases hpass : p.PassThroughWebP = true ∧
              (format = "webp" ∨
                strContains (goLower (goTrim (penv.detect data))) "webp" = true)
          · rw [if_pos hpass] at hok
            simp only [Prod.mk.injEq, Except.ok.injEq] at hok
            obtain ⟨hpi, htr⟩ := hok
            subst hpi
            constructor <;> simp <;> omega
          · rw [if_neg hpass] at hok
            cases hdec : penv.decode data with
            | error e => rw [hdec] at hok; dsimp only [] at hok; simp at hok
            | ok img =>
              rw [hdec] at hok
              dsimp only [] at hok
              cases henc : encodeWithCWebP penv p img with
              | error e => rw [henc] at hok; dsimp only [] at hok; simp at hok
              | ok out =>
                rw [henc] at hok
                dsimp only [] at hok
                cases hcfg2 : penv.decodeConfig out with
                | error e => rw [hcfg2] at hok; dsimp only [] at hok; simp at hok
                | ok t2 =>
                  obtain ⟨w2, h2, fmt2⟩ := t2
                  rw [hcfg2] at hok
                  dsimp only [] at hok
                  simp only [Prod.mk.injEq, Except.ok.injEq] at hok
                  obtain ⟨hpi, htr⟩ := hok
                  subst hpi
                  exact hgood out w2 h2 fmt2 hcfg2

/-- Witness for C7 (amended): the invalid-dimensions failure on a 0×5
input, and positivity of a concrete pass-through preparation. -/
theorem prepare_positive_dims_witness :
    (Prepare { detect := fun _ => "image/webp",
               decodeConfig := fun _ => .ok (0, 5, "webp"),
               decode := fun _ => .error "unused",
               cwebp := fun _ _ _ _ => .error "unused",
               hashHex := fun _ => "hh" } NewHybridWebPProcessor [1]).1 =
      .error "invalid image size" ∧
    (0 < (⟨[1, 2], "h2", 3, 2, "h", 2, "image/webp", "image/webp"⟩ :
        PreparedImage).Width ∧
     0 < (⟨[1, 2], "h2", 3, 2, "h", 2, "image/webp", "image/webp"⟩ :
        PreparedImage).Height) :=
  ⟨prepare_positive_dims.1
      { detect := fun _ => "image/webp",
        decodeConfig := fun _ => .ok (0, 5, "webp"),
        decode := fun _ => .error "unused",
        cwebp := fun _ _ _ _ => .error "unused",
        hashHex := fun _ => "hh" }
      NewHybridWebPProcessor [1] 0 5 "webp" (by decide) rfl (by decide),
   prepare_positive_dims.2.1
      { detect := fun _ => "image/webp",
        decodeConfig := fun _ => .ok (3, 2, "webp"),
        decode := fun _ => .error "unused",
        cwebp := fun _ _ _ _ => .error "unused",
        hashHex := fun bs => "h" ++ toString bs.length }
      NewHybridWebPProcessor [1, 2]
      ⟨[1, 2], "h2", 3, 2, "h", 2, "image/webp", "image/webp"⟩ rfl⟩

/-- C3 counterexample: a concrete run whose metadata insert fails after a
successful upload performs exactly one compensating delete, and the context
it runs on is `context.Background()`: independent of the (cancelled,
deadline-carrying) caller context but with **no** deadline — the claim that
the compensation scope has its own bounded timeout is false. -/
theorem compensation_unbounded_counterexample :
    ((storeToGallery (some svcFull) { envOk with insertErr := some "boom" }
        ⟨true, true⟩ stEmpty inpK).2.2.filter
      (fun ev => match ev with | Event.deleteObject _ _ => true | _ => false)) =
      [Event.deleteObject ⟨false, false⟩ "ri/h/1.webp"] ∧
    (⟨false, false⟩ : Ctx).hasDeadline = false :=
  ⟨by decide, rfl⟩

/-- C3 (amended): whenever the metadata insert fails after a successful
blob upload, `StoreToGallery` fires a compensating delete of the
just-uploaded blob at the derived key on `context.Background()` — a
cancellation scope independent of the caller's context (never cancelled, so
it runs even if the caller's context is already cancelled) but carrying no
deadline of its own — leaves the metadata store untouched, returns the
insertion error wrapped with the operation name, and is entirely
insensitive to the delete's own outcome (its error is discarded). -/
theorem storeToGallery_compensation (svc : Service) (env : Env) (ctx : Ctx)
    (st : DBState) (inp : StoreInput) (prepared : PreparedImage) (n : Int)
    (e e2 : String)
    (hdb : svc.hasDB = true) (hst : svc.hasStore = true)
    (hpr : svc.hasProcessor = true)
    (hkey : goTrim inp.sourceKey ≠ "")
    (hraw : inp.rawData ≠ [])
    (hb : env.isBlockedErr = none)
    (hblk : isBlockedVal st (goTrim inp.sourceKey) = false)
    (hs1 : env.existsSrc1Err = none)
    (hsrc : existsSourceKeyVal st (goTrim inp.sourceKey) = false)
    (hprep : env.prepare inp.rawData = .ok prepared)
    (hh1 : env.existsHash1Err = none)
    (hhash : existsSHA256Val st prepared.SHA256 = false)
    (hs2 : env.existsSrc2Err = none)
    (hh2 : env.existsHash2Err = none)
    (hseq : nextGallerySeqVal env st prepared.Orientation = .ok n)
    (hput : env.putErr = none)
    (hfail : insertGalleryImageVal env st
        (buildImage env (trimInput inp) prepared n
          ("ri/" ++ prepared.Orientation ++ "/" ++ toString n ++ ".webp")) =
      .error e) :
    storeToGallery (some svc) env ctx st inp =
      (.error ("insert gallery image: " ++ e), st,
        [Event.isBlocked (goTrim inp.sourceKey),
         Event.existsSourceKey (goTrim inp.sourceKey),
         Event.prepareCall,
         Event.existsSHA256 prepared.SHA256,
         Event.existsSourceKey (goTrim inp.sourceKey),
         Event.existsSHA256 prepared.SHA256,
         Event.nextSeq prepared.Orientation,
         Event.putObject ("ri/" ++ prepared.Orientation ++ "/" ++ toString n ++ ".webp")
           prepared.WebPBytes prepared.ContentType,
         Event.insertImage (buildImage env (trimInput inp) prepared n
           ("ri/" ++ prepared.Orientation ++ "/" ++ toString n ++ ".webp")),
         Event.deleteObject Ctx.background
           ("ri/" ++ prepared.Orientation ++ "/" ++ toString n ++ ".webp")]) ∧
    Ctx.background.cancelled = false ∧
    Ctx.background.hasDeadline = false ∧
    storeToGallery (some svc) { env with deleteErr := some e2 } ctx st inp =
      storeToGallery (some svc) env ctx st inp := by
  refine ⟨?_, rfl, rfl, rfl⟩
  have eIns : storePhaseInsert env st
      (buildImage env (trimInput inp) prepared n
        ("ri/" ++ prepared.Orientation ++ "/" ++ toString n ++ ".webp"))
      prepared.SHA256
      ("ri/" ++ prepared.Orientation ++ "/" ++ toString n ++ ".webp") =
      (.error ("insert gallery image: " ++ e), st,
        [Event.insertImage (buildImage env (trimInput inp) prepared n
          ("ri/" ++ prepared.Orientation ++ "/" ++ toString n ++ ".webp")),
         Event.deleteObject Ctx.background
          ("ri/" ++ prepared.Orientation ++ "/" ++ toString n ++ ".webp")]) := by
    simp only [storePhaseInsert, hfail]
  have eUp : storePhaseUpload env st (trimInput inp) prepared n =
      (.error ("insert gallery image: " ++ e), st,
        [Event.putObject ("ri/" ++ prepared.Orientation ++ "/" ++ toString n ++ ".webp")
           prepared.WebPBytes prepared.ContentType,
         Event.insertImage (buildImage env (trimInput inp) prepared n
          ("ri/" ++ prepared.Orientation ++ "/" ++ toString n ++ ".webp")),
         Event.deleteObject Ctx.background
          ("ri/" ++ prepared.Orientation ++ "/" ++ toString n ++ ".webp")]) := by
    simp only [storePhaseUpload, hput]
    rw [eIns]
  have eLock : storePhaseLocked env st (trimInput inp) prepared =
      (.error ("insert gallery image: " ++ e), st,
        [Event.existsSourceKey (goTrim inp.sourceKey),
         Event.existsSHA256 prepared.SHA256,
         Event.nextSeq prepared.Orientation,
         Event.putObject ("ri/" ++ prepared.Orientation ++ "/" ++ toString n ++ ".webp")
           prepared.WebPBytes prepared.ContentType,
         Event.insertImage (buildImage env (trimInput inp) prepared n
          ("ri/" ++ prepared.Orientation ++ "/" ++ toString n ++ ".webp")),
         Event.deleteObject Ctx.background
          ("ri/" ++ prepared.Orientation ++ "/" ++ toString n ++ ".webp")]) := by
    simp only [storePhaseLocked, trimInput_sourceKey, hs2, hh2, hsrc, hhash,
      hseq, Bool.false_eq_true, if_false, ite_false]
    rw [eUp]
  have eHash : storePhaseHashCheck env st (trimInput inp) prepared =
      (.error ("insert gallery image: " ++ e), st,
        [Event.existsSHA256 prepared.SHA256,
         Event.existsSourceKey (goTrim inp.sourceKey),
         Event.existsSHA256 prepared.SHA256,
         Event.nextSeq prepared.Orientation,
         Event.putObject ("ri/" ++ prepared.Orientation ++ "/" ++ toString n ++ ".webp")
           prepared.WebPBytes prepared.ContentType,
         Event.insertImage (buildImage env (trimInput inp) prepared n
          ("ri/" ++ prepared.Orientation ++ "/" ++ toString n ++ ".webp")),
         Event.deleteObject Ctx.background
          ("ri/" ++ prepared.Orientation ++ "/" ++ toString n ++ ".webp")]) := by
    simp only [storePhaseHashCheck, hh1, hhash, Bool.false_eq_true, if_false,
      ite_false]
    rw [eLock]
  simp only [storeToGallery, trimInput_sourceKey, trimInput_rawData, hb, hs1,
    hprep, hkey, hblk, hsrc, List.length_eq_zero, hraw, Bool.false_eq_true,
    if_false, ite_false, not_false_iff, if_true, ite_true]
  rw [if_neg (by simp [hdb, hst, hpr])]
  rw [eHash]

/-- Witness for C3 (amended): a concrete run with a cancelled caller
context whose insert fails; the compensating delete runs on
`context.Background()` and the delete environment outcome is irrelevant. -/
theorem storeToGallery_compensation_witness :
    storeToGallery (some svcFull) { envOk with insertErr := some "boom" }
        ⟨true, true⟩ stEmpty inpK =
      (.error ("insert gallery image: " ++ "boom"), stEmpty,
        [Event.isBlocked (goTrim inpK.sourceKey),
         Event.existsSourceKey (goTrim inpK.sourceKey),
         Event.prepareCall,
         Event.existsSHA256 prepWebP.SHA256,
         Event.existsSourceKey (goTrim inpK.sourceKey),
         Event.existsSHA256 prepWebP.SHA256,
         Event.nextSeq prepWebP.Orientation,
         Event.putObject
           ("ri/" ++ prepWebP.Orientation ++ "/" ++ toString (1 : Int) ++ ".webp")
           prepWebP.WebPBytes prepWebP.ContentType,
         Event.insertImage (buildImage { envOk with insertErr := some "boom" }
           (trimInput inpK) prepWebP 1
           ("ri/" ++ prepWebP.Orientation ++ "/" ++ toString (1 : Int) ++ ".webp")),
         Event.deleteObject Ctx.background
           ("ri/" ++ prepWebP.Orientation ++ "/" ++ toString (1 : Int) ++ ".webp")]) ∧
    Ctx.background.cancelled = false ∧
    Ctx.background.hasDeadline = false ∧
    storeToGallery (some svcFull)
        { ({ envOk with insertErr := some "boom" }) with deleteErr := some "dfail" }
        ⟨true, true⟩ stEmpty inpK =
      storeToGallery (some svcFull) { envOk with insertErr := some "boom" }
        ⟨true, true⟩ stEmpty inpK :=
  storeToGallery_compensation svcFull { envOk with insertErr := some "boom" }
    ⟨true, true⟩ stEmpty inpK prepWebP 1 "boom" "dfail"
    rfl rfl rfl (by decide) (by decide) rfl (by decide) rfl (by decide) rfl rfl
    (by decide) rfl rfl rfl rfl rfl

/-- Count-query failure only zeroes the counts of a success result at the
insert phase (`env2` differs from `env1` only by a failing count query);
everything else — insert outcome, final state, trace — is unchanged. -/
theorem storePhaseInsert_countdeg (env1 env2 : Env) (e : String)
    (st : DBState) (img : GalleryImage) (sha key : String)
    (res : StoreResult) (st' : DBState) (tr : List Event)
    (hIns : env2.insertErr = env1.insertErr) (hNow : env2.now = env1.now)
    (hc1 : env1.countErr = none) (hc2 : env2.countErr = some e)
    (hok : storePhaseInsert env1 st img sha key = (.ok res, st', tr)) :
    storePhaseInsert env2 st img sha key =
      (.ok { res with counts := ⟨0, 0⟩ }, st', tr) := by
  unfold storePhaseInsert at hok ⊢
  have hins : insertGalleryImageVal env2 st img =
      insertGalleryImageVal env1 st img := by
    unfold insertGalleryImageVal defaultedImage
    rw [hIns, hNow]
  rw [hins]
  cases h : insertGalleryImageVal env1 st img with
  | error e2 =>
    rw [h] at hok
    dsimp only [] at hok
    exact absurd hok (by simp)
  | ok st2 =>
    rw [h] at hok
    dsimp only [] at hok ⊢
    rw [hc1] at hok
    rw [hc2]
    dsimp only [] at hok ⊢
    simp only [Prod.mk.injEq, Except.ok.injEq] at hok
    obtain ⟨hres, hst, htr⟩ := hok
    subst hres hst htr
    rfl

/-- Count-query failure congruence at the upload phase. -/
theorem storePhaseUpload_countdeg (env1 env2 : Env) (e : String)
    (st : DBState) (inp : StoreInput) (prepared : PreparedImage) (seq : Int)
    (res : StoreResult) (st' : DBState) (tr : List Event)
    (hPut : env2.putErr = env1.putErr)
    (hIns : env2.insertErr = env1.insertErr) (hNow : env2.now = env1.now)
    (hNano : env2.nowNano = env1.nowNano)
    (hc1 : env1.countErr = none) (hc2 : env2.countErr = some e)
    (hok : storePhaseUpload env1 st inp prepared seq = (.ok res, st', tr)) :
    storePhaseUpload env2 st inp prepared seq =
      (.ok { res with counts := ⟨0, 0⟩ }, st', tr) := by
  unfold storePhaseUpload at hok ⊢
  rw [hPut]
  cases hput : env1.putErr with
  | some e2 =>
    rw [hput] at hok
    dsimp only [] at hok
    exact absurd hok (by simp)
  | none =>
    rw [hput] at hok
    dsimp only [] at hok ⊢
    have hbuild : ∀ key, buildImage env2 inp prepared seq key =
        buildImage env1 inp prepared seq key := by
      intro key
      unfold buildImage pickID
      rw [hNow, hNano]
    rw [hbuild]
    simp only [Prod.mk.injEq] at hok
    obtain ⟨h1, h2, h3⟩ := hok
    have hT : storePhaseInsert env1 st
        (buildImage env1 inp prepared seq
          ("ri/" ++ prepared.Orientation ++ "/" ++ toString seq ++ ".webp"))
        prepared.SHA256
        ("ri/" ++ prepared.Orientation ++ "/" ++ toString seq ++ ".webp") =
        (.ok res, st',
          (storePhaseInsert env1 st
            (buildImage env1 inp prepared seq
              ("ri/" ++ prepared.Orientation ++ "/" ++ toString seq ++ ".webp"))
            prepared.SHA256
            ("ri/" ++ prepared.Orientation ++ "/" ++ toString seq ++ ".webp")).2.2) := by
      rw [← h1, ← h2]
    rw [storePhaseInsert_countdeg env1 env2 e st _ _ _ res st' _ hIns hNow
      hc1 hc2 hT]
    simp only [← h3]

/-- Count-query failure congruence at the locked phase. -/
theorem storePhaseLocked_countdeg (env1 env2 : Env) (e : String)
    (st : DBState) (inp : StoreInput) (prepared : PreparedImage)
    (res : StoreResult) (st' : DBState) (tr : List Event)
    (hS2 : env2.existsSrc2Err = env1.existsSrc2Err)
    (hH2 : env2.existsHash2Err = env1.existsHash2Err)
    (hSeq : env2.nextSeqErr = env1.nextSeqErr)
    (hPut : env2.putErr = env1.putErr)
    (hIns : env2.insertErr = env1.insertErr) (hNow : env2.now = env1.now)
    (hNano : env2.nowNano = env1.nowNano)
    (hc1 : env1.countErr = none) (hc2 : env2.countErr = some e)
    (hok : storePhaseLocked env1 st inp prepared = (.ok res, st', tr)) :
    storePhaseLocked env2 st inp prepared =
      (.ok { res with counts := ⟨0, 0⟩ }, st', tr) := by
  unfold storePhaseLocked at hok ⊢
  rw [hS2]
  cases hs2 : env1.existsSrc2Err with
  | some e2 =>
    rw [hs2] at hok
    dsimp only [] at hok
    exact absurd hok (by simp)
  | none =>
    rw [hs2] at hok
    dsimp only [] at hok ⊢
    by_cases hsrc : existsSourceKeyVal st inp.sourceKey = true
    · rw [if_pos hsrc] at hok ⊢
      simp only [Prod.mk.injEq, Except.ok.injEq] at hok
      obtain ⟨hres, hst, htr⟩ := hok
      subst hres hst htr
      rfl
    · rw [if_neg hsrc] at hok ⊢
      rw [hH2]
      cases hh2 : env1.existsHash2Err with
      | some e2 =>
        rw [hh2] at hok
        dsimp only [] at hok
        exact absurd hok (by simp)
      | none =>
        rw [hh2] at hok
        dsimp only [] at hok ⊢
        by_cases hhash : existsSHA256Val st prepared.SHA256 = true
        · rw [if_pos hhash] at hok ⊢
          simp only [Prod.mk.injEq, Except.ok.injEq] at hok
          obtain ⟨hres, hst, htr⟩ := hok
          subst hres hst htr
          rfl
        · rw [if_neg hhash] at hok ⊢
          have hnext : nextGallerySeqVal env2 st prepared.Orientation =
              nextGallerySeqVal env1 st prepared.Orientation := by
            unfold nextGallerySeqVal
            rw [hSeq]
          rw [hnext]
          cases hseq : nextGallerySeqVal env1 st prepared.Orientation with
          | error e2 =>
            rw [hseq] at hok
            dsimp only [] at hok
            exact absurd hok (by simp)
          | ok seq =>
            rw [hseq] at hok
            dsimp only [] at hok ⊢
            simp only [Prod.mk.injEq] at hok
            obtain ⟨h1, h2, h3⟩ := hok
            have hT : storePhaseUpload env1 st inp prepared seq =
                (.ok res, st',
                  (storePhaseUpload env1 st inp prepared seq).2.2) := by
              rw [← h1, ← h2]
            rw [storePhaseUpload_countdeg env1 env2 e st inp prepared seq res
              st' _ hPut hIns hNow hNano hc1 hc2 hT]
            simp only [← h3]

/-- Count-query failure congruence at the hash-check phase. -/
theorem storePhaseHashCheck_countdeg (env1 env2 : Env) (e : String)
    (st : DBState) (inp : StoreInput) (prepared : PreparedImage)
    (res : StoreResult) (st' : DBState) (tr : List Event)
    (hH1 : env2.existsHash1Err = env1.existsHash1Err)
    (hS2 : env2.existsSrc2Err = env1.existsSrc2Err)
    (hH2 : env2.existsHash2Err = env1.existsHash2Err)
    (hSeq : env2.nextSeqErr = env1.nextSeqErr)
    (hPut : env2.putErr = env1.putErr)
    (hIns : env2.insertErr = env1.insertErr) (hNow : env2.now = env1.now)
    (hNano : env2.nowNano = env1.nowNano)
    (hc1 : env1.countErr = none) (hc2 : env2.countErr = some e)
    (hok : storePhaseHashCheck env1 st inp prepared = (.ok res, st', tr)) :
    storePhaseHashCheck env2 st inp prepared =
      (.ok { res with counts := ⟨0, 0⟩ }, st', tr) := by
  unfold storePhaseHashCheck at hok ⊢
  rw [hH1]
  cases hh1 : env1.existsHash1Err with
  | some e2 =>
    rw [hh1] at hok
    dsimp only [] at hok
    exact absurd hok (by simp)
  | none =>
    rw [hh1] at hok
    dsimp only [] at hok ⊢
    by_cases hhash : existsSHA256Val st prepared.SHA256 = true
    · rw [if_pos hhash] at hok ⊢
      simp only [Prod.mk.injEq, Except.ok.injEq] at hok
      obtain ⟨hres, hst, htr⟩ := hok
      subst hres hst htr
      rfl
    · rw [if_neg hhash] at hok ⊢
      simp only [Prod.mk.injEq] at hok
      obtain ⟨h1, h2, h3⟩ := hok
      have hT : storePhaseLocked env1 st inp prepared =
          (.ok res, st',
            (storePhaseLocked env1 st inp prepared).2.2) := by
        rw [← h1, ← h2]
      rw [storePhaseLocked_countdeg env1 env2 e st inp prepared res st' _
        hS2 hH2 hSeq hPut hIns hNow hNano hc1 hc2 hT]
      simp only [← h3]

/-- Count-query failure congruence for a whole `StoreToGallery` call, over
two environments that differ only in the count query's outcome. -/
theorem storeToGallery_countdeg (s : Option Service) (env1 env2 : Env)
    (ctx : Ctx) (st : DBState) (inp : StoreInput) (res : StoreResult)
    (st' : DBState) (tr : List Event) (e : String)
    (hB : env2.isBlockedErr = env1.isBlockedErr)
    (hS1 : env2.existsSrc1Err = env1.existsSrc1Err)
    (hPrep : env2.prepare = env1.prepare)
    (hH1 : env2.existsHash1Err = env1.existsHash1Err)
    (hS2 : env2.existsSrc2Err = env1.existsSrc2Err)
    (hH2 : env2.existsHash2Err = env1.existsHash2Err)
    (hSeq : env2.nextSeqErr = env1.nextSeqErr)
    (hPut : env2.putErr = env1.putErr)
    (hIns : env2.insertErr = env1.insertErr) (hNow : env2.now = env1.now)
    (hNano : env2.nowNano = env1.nowNano)
    (hc1 : env1.countErr = none) (hc2 : env2.countErr = some e)
    (hok : storeToGallery s env1 ctx st inp = (.ok res, st', tr)) :
    storeToGallery s env2 ctx st inp =
      (.ok { res with counts := ⟨0, 0⟩ }, st', tr) := by
  unfold storeToGallery at hok ⊢
  cases s with
  | none => exact absurd hok (by simp)
  | some svc =>
    dsimp only [] at hok ⊢
    by_cases hguard : svc.hasDB = false ∨ svc.hasStore = false ∨
        svc.hasProcessor = false
    · rw [if_pos hguard] at hok
      exact absurd hok (by simp)
    · rw [if_neg hguard] at hok ⊢
      by_cases hkey : (trimInput inp).sourceKey = ""
      · rw [if_pos hkey] at hok
        exact absurd hok (by simp)
      · rw [if_neg hkey] at hok ⊢
        by_cases hraw : (trimInput inp).rawData.length = 0
        · rw [if_pos hraw] at hok
          exact absurd hok (by simp)
        · rw [if_neg hraw] at hok ⊢
          rw [hB]
          cases hb : env1.isBlockedErr with
          | some e2 =>
            rw [hb] at hok
            dsimp only [] at hok
            exact absurd hok (by simp)
          | none =>
            rw [hb] at hok
            dsimp only [] at hok ⊢
            by_cases hblk : isBlockedVal st (trimInput inp).sourceKey = true
            · rw [if_pos hblk] at hok ⊢
              simp only [Prod.mk.injEq, Except.ok.injEq] at hok
              obtain ⟨hres, hst, htr⟩ := hok
              subst hres hst htr
              rfl
            · rw [if_neg hblk] at hok ⊢
              rw [hS1]
              cases hs1 : env1.existsSrc1Err with
              | some e2 =>
                rw [hs1] at hok
                dsimp only [] at hok
                exact absurd hok (by simp)
              | none =>
                rw [hs1] at hok
                dsimp only [] at hok ⊢
                by_cases hsrc : existsSourceKeyVal st
                    (trimInput inp).sourceKey = true
                · rw [if_pos hsrc] at hok ⊢
                  simp only [Prod.mk.injEq, Except.ok.injEq] at hok
                  obtain ⟨hres, hst, htr⟩ := hok
                  subst hres hst htr
                  rfl
                · rw [if_neg hsrc] at hok ⊢
                  rw [hPrep]
                  cases hprep : env1.prepare (trimInput inp).rawData with
                  | error e2 =>
                    rw [hprep] at hok
                    dsimp only [] at hok
                    exact absurd hok (by simp)
                  | ok prepared =>
                    rw [hprep] at hok
                    dsimp only [] at hok ⊢
                    simp only [Prod.mk.injEq] at hok
                    obtain ⟨h1, h2, h3⟩ := hok
                    have hT : storePhaseHashCheck env1 st (trimInput inp)
                        prepared =
                        (.ok res, st',
                          (storePhaseHashCheck env1 st (trimInput inp)
                            prepared).2.2) := by
                      rw [← h1, ← h2]
                    rw [storePhaseHashCheck_countdeg env1 env2 e st
                      (trimInput inp) prepared res st' _ hH1 hS2 hH2 hSeq hPut
                      hIns hNow hNano hc1 hc2 hT]
                    simp only [← h3]

/-- C9: a read-side failure never undoes a write — if the run with a
succeeding count query returns a success result with `added:true` (i.e. the
metadata insert succeeded), then the identical run in which the post-insert
aggregate count query fails still returns a nil error and the same result
(same `added:true`, same inserted image, same fingerprint, same final store
state and same call trace) with zero-valued counts, instead of propagating
the count-query error. -/
theorem storeToGallery_count_failure (s : Option Service) (env : Env)
    (ctx : Ctx) (st : DBState) (inp : StoreInput) (res : StoreResult)
    (st' : DBState) (tr : List Event) (e : String)
    (hok : storeToGallery s { env with countErr := none } ctx st inp =
      (.ok res, st', tr))
    (_hadd : res.added = true) :
    storeToGallery s { env with countErr := some e } ctx st inp =
      (.ok { res with counts := ⟨0, 0⟩ }, st', tr) :=
  storeToGallery_countdeg s { env with countErr := none }
    { env with countErr := some e } ctx st inp res st' tr e
    rfl rfl rfl rfl rfl rfl rfl rfl rfl rfl rfl rfl rfl hok

/-- Witness for C9: a concrete successful insert whose count query fails
still reports success with zero counts. -/
theorem storeToGallery_count_failure_witness :
    storeToGallery (some svcFull) { envOk with countErr := some "cfail" }
        Ctx.background stEmpty inpK =
      (.ok { added := true, skipReason := "",
             image := buildImage { envOk with countErr := none }
               (trimInput inpK) prepWebP 1
               ("ri/" ++ prepWebP.Orientation ++ "/" ++ toString (1 : Int) ++ ".webp"),
             counts := ⟨0, 0⟩, contentHash := prepWebP.SHA256 },
        ⟨[buildImage { envOk with countErr := none } (trimInput inpK) prepWebP 1
            ("ri/" ++ prepWebP.Orientation ++ "/" ++ toString (1 : Int) ++ ".webp")], []⟩,
        [Event.isBlocked (goTrim inpK.sourceKey),
         Event.existsSourceKey (goTrim inpK.sourceKey),
         Event.prepareCall,
         Event.existsSHA256 prepWebP.SHA256,
         Event.existsSourceKey (goTrim inpK.sourceKey),
         Event.existsSHA256 prepWebP.SHA256,
         Event.nextSeq prepWebP.Orientation,
         Event.putObject
           ("ri/" ++ prepWebP.Orientation ++ "/" ++ toString (1 : Int) ++ ".webp")
           prepWebP.WebPBytes prepWebP.ContentType,
         Event.insertImage (buildImage { envOk with countErr := none }
           (trimInput inpK) prepWebP 1
           ("ri/" ++ prepWebP.Orientation ++ "/" ++ toString (1 : Int) ++ ".webp")),
         Event.countActive]) :=
  storeToGallery_count_failure (some svcFull) envOk Ctx.background stEmpty inpK
    _ _ _ "cfail" rfl rfl

/-- A successful `InsertGalleryImage` appends exactly one record, whose
`sha256` is the normalized hash of the input record; that hash is non-empty
and (by the UNIQUE backstop) not yet present in the store. -/
theorem insertGalleryImageVal_ok (env : Env) (st : DBState)
    (img0 : GalleryImage) (st2 : DBState)
    (h : insertGalleryImageVal env st img0 = .ok st2) :
    ∃ imgN, st2.records = st.records ++ [imgN] ∧
      imgN.sha256 = goLower (goTrim img0.sha256) ∧
      goLower (goTrim img0.sha256) ≠ "" ∧
      st.records.any (fun r => r.sha256 = goLower (goTrim img0.sha256)) = false := by
  unfold insertGalleryImageVal at h
  dsimp only [] at h
  repeat' split at h
  all_goals first
    | exact Except.noConfusion h
    | (injection h with h2
       subst h2
       refine ⟨_, rfl, ?_, ?_, ?_⟩
       · rw [defaultedImage_sha256]
       · assumption
       · rename_i hcon
         rw [← Bool.not_eq_true]
         intro hany
         apply hcon
         rw [List.any_eq_true] at hany ⊢
         obtain ⟨r, hr, hsha⟩ := hany
         rw [decide_eq_true_eq] at hsha
         refine ⟨r, hr, ?_⟩
         rw [decide_eq_true_eq]
         refine Or.inr (Or.inr (Or.inl ?_))
         rw [defaultedImage_sha256]
         exact hsha)

/-- The record assembled by the service carries the prepared fingerprint. -/
theorem buildImage_sha256 (env : Env) (inp : StoreInput)
    (prepared : PreparedImage) (seq : Int) (key : String) :
    (buildImage env inp prepared seq key).sha256 = prepared.SHA256 := rfl

/-- The metadata store only grows across the insert phase. -/
theorem storePhaseInsert_records (env : Env) (st : DBState)
    (img : GalleryImage) (sha key : String) :
    ∃ l, (storePhaseInsert env st img sha key).2.1.records =
      st.records ++ l := by
  unfold storePhaseInsert
  cases h : insertGalleryImageVal env st img with
  | error e => exact ⟨[], (List.append_nil _).symm⟩
  | ok st2 =>
    obtain ⟨imgN, hrec, -, -, -⟩ := insertGalleryImageVal_ok env st img st2 h
    cases hc : env.countErr <;> exact ⟨[imgN], hrec⟩

/-- The metadata store only grows across the upload phase. -/
theorem storePhaseUpload_records (env : Env) (st : DBState)
    (inp : StoreInput) (prepared : PreparedImage) (seq : Int) :
    ∃ l, (storePhaseUpload env st inp prepared seq).2.1.records =
      st.records ++ l := by
  unfold storePhaseUpload
  cases hput : env.putErr with
  | some e => exact ⟨[], (List.append_nil _).symm⟩
  | none =>
    dsimp only []
    exact storePhaseInsert_records env st _ prepared.SHA256 _

/-- The metadata store only grows across the locked phase. -/
theorem storePhaseLocked_records (env : Env) (st : DBState)
    (inp : StoreInput) (prepared : PreparedImage) :
    ∃ l, (storePhaseLocked env st inp prepared).2.1.records =
      st.records ++ l := by
  unfold storePhaseLocked
  cases hs2 : env.existsSrc2Err with
  | some e => exact ⟨[], (List.append_nil _).symm⟩
  | none =>
    dsimp only []
    split
    · exact ⟨[], (List.append_nil _).symm⟩
    · cases hh2 : env.existsHash2Err with
      | some e => exact ⟨[], (List.append_nil _).symm⟩
      | none =>
        dsimp only []
        split
        · exact ⟨[], (List.append_nil _).symm⟩
        · cases hseq : nextGallerySeqVal env st prepared.Orientation with
          | error e => exact ⟨[], (List.append_nil _).symm⟩
          | ok seq =>
            dsimp only []
            exact storePhaseUpload_records env st inp prepared seq

/-- The metadata store only grows across the hash-check phase. -/
theorem storePhaseHashCheck_records (env : Env) (st : DBState)
    (inp : StoreInput) (prepared : PreparedImage) :
    ∃ l, (storePhaseHashCheck env st inp prepared).2.1.records =
      st.records ++ l := by
  unfold storePhaseHashCheck
  cases hh1 : env.existsHash1Err with
  | some e => exact ⟨[], (List.append_nil _).symm⟩
  | none =>
    dsimp only []
    split
    · exact ⟨[], (List.append_nil _).symm⟩
    · exact storePhaseLocked_records env st inp prepared

/-- The metadata store only grows across a `StoreToGallery` call: no branch
removes or rewrites existing records. -/
theorem storeToGallery_records (s : Option Service) (env : Env) (ctx : Ctx)
    (st : DBState) (inp : StoreInput) :
    ∃ l, (storeToGallery s env ctx st inp).2.1.records = st.records ++ l := by
  unfold storeToGallery
  cases s with
  | none => exact ⟨[], (List.append_nil _).symm⟩
  | some svc =>
    dsimp only []
    split
    · exact ⟨[], (List.append_nil _).symm⟩
    · split
      · exact ⟨[], (List.append_nil _).symm⟩
      · split
        · exact ⟨[], (List.append_nil _).symm⟩
        · cases hb : env.isBlockedErr with
          | some e => exact ⟨[], (List.append_nil _).symm⟩
          | none =>
            dsimp only []
            split
            · exact ⟨[], (List.append_nil _).symm⟩
            · cases hs1 : env.existsSrc1Err with
              | some e => exact ⟨[], (List.append_nil _).symm⟩
              | none =>
                dsimp only []
                split
                · exact ⟨[], (List.append_nil _).symm⟩
                · cases hprep : env.prepare (trimInput inp).rawData with
                  | error e => exact ⟨[], (List.append_nil _).symm⟩
                  | ok prepared =>
                    dsimp only []
                    exact storePhaseHashCheck_records env st (trimInput inp)
                      prepared

/-- A fingerprint present in the store stays present across any call. -/
theorem storeToGallery_hasSha_mono (s : Option Service) (env : Env)
    (ctx : Ctx) (st : DBState) (inp : StoreInput) (F : String)
    (h : hasSha st F = true) :
    hasSha (storeToGallery s env ctx st inp).2.1 F = true := by
  obtain ⟨l, hl⟩ := storeToGallery_records s env ctx st inp
  unfold hasSha at h ⊢
  rw [hl, List.any_append, h, Bool.true_or]

/-- An `added:true` result of the insert phase reports the fingerprint it
was given, which was absent from the store before the call and is present
(normalized) afterwards. -/
theorem storePhaseInsert_added (env : Env) (st : DBState)
    (img : GalleryImage) (sha key : String) (res : StoreResult)
    (st' : DBState) (tr : List Event)
    (hok : storePhaseInsert env st img sha key = (.ok res, st', tr))
    (_hadd : res.added = true) :
    res.contentHash = sha ∧
    hasSha st (goLower (goTrim img.sha256)) = false ∧
    hasSha st' (goLower (goTrim img.sha256)) = true ∧
    goLower (goTrim img.sha256) ≠ "" := by
  unfold storePhaseInsert at hok
  cases h : insertGalleryImageVal env st img with
  | error e =>
    rw [h] at hok
    dsimp only [] at hok
    exact absurd hok (by simp)
  | ok st2 =>
    rw [h] at hok
    dsimp only [] at hok
    obtain ⟨imgN, hrec, hsha, hne, hany⟩ := insertGalleryImageVal_ok env st
      img st2 h
    cases hc : env.countErr with
    | some e2 =>
      rw [hc] at hok
      dsimp only [] at hok
      simp only [Prod.mk.injEq, Except.ok.injEq] at hok
      obtain ⟨hres, hst, -⟩ := hok
      subst hres hst
      refine ⟨rfl, hany, ?_, hne⟩
      unfold hasSha
      rw [hrec, List.any_append]
      simp [hsha]
    | none =>
      rw [hc] at hok
      dsimp only [] at hok
      simp only [Prod.mk.injEq, Except.ok.injEq] at hok
      obtain ⟨hres, hst, -⟩ := hok
      subst hres hst
      refine ⟨rfl, hany, ?_, hne⟩
      unfold hasSha
      rw [hrec, List.any_append]
      simp [hsha]

/-- An `added:true` result of the upload phase reports the prepared
fingerprint, absent before and present (normalized) afterwards. -/
theorem storePhaseUpload_added (env : Env) (st : DBState) (inp : StoreInput)
    (prepared : PreparedImage) (seq : Int) (res : StoreResult)
    (st' : DBState) (tr : List Event)
    (hok : storePhaseUpload env st inp prepared seq = (.ok res, st', tr))
    (hadd : res.added = true) :
    res.contentHash = prepared.SHA256 ∧
    hasSha st (goLower (goTrim prepared.SHA256)) = false ∧
    hasSha st' (goLower (goTrim prepared.SHA256)) = true ∧
    goLower (goTrim prepared.SHA256) ≠ "" := by
  unfold storePhaseUpload at hok
  cases hput : env.putErr with
  | some e =>
    rw [hput] at hok
    dsimp only [] at hok
    exact absurd hok (by simp)
  | none =>
    rw [hput] at hok
    dsimp only [] at hok
    simp only [Prod.mk.injEq] at hok
    obtain ⟨h1, h2, h3⟩ := hok
    have hT : storePhaseInsert env st
        (buildImage env inp prepared seq
          ("ri/" ++ prepared.Orientation ++ "/" ++ toString seq ++ ".webp"))
        prepared.SHA256
        ("ri/" ++ prepared.Orientation ++ "/" ++ toString seq ++ ".webp") =
        (.ok res, st',
          (storePhaseInsert env st
            (buildImage env inp prepared seq
              ("ri/" ++ prepared.Orientation ++ "/" ++ toString seq ++ ".webp"))
            prepared.SHA256
            ("ri/" ++ prepared.Orientation ++ "/" ++ toString seq ++ ".webp")).2.2) := by
      rw [← h1, ← h2]
    exact storePhaseInsert_added env st _ prepared.SHA256 _ res st' _ hT hadd

/-- An `added:true` result of the locked phase: race skips report
`added:false`, so the result comes from the upload phase. -/
theorem storePhaseLocked_added (env : Env) (st : DBState) (inp : StoreInput)
    (prepared : PreparedImage) (res : StoreResult)
    (st' : DBState) (tr : List Event)
    (hok : storePhaseLocked env st inp prepared = (.ok res, st', tr))
    (hadd : res.added = true) :
    res.contentHash = prepared.SHA256 ∧
    hasSha st (goLower (goTrim prepared.SHA256)) = false ∧
    hasSha st' (goLower (goTrim prepared.SHA256)) = true ∧
    goLower (goTrim prepared.SHA256) ≠ "" := by
  unfold storePhaseLocked at hok
  cases hs2 : env.existsSrc2Err with
  | some e =>
    rw [hs2] at hok
    dsimp only [] at hok
    exact absurd hok (by simp)
  | none =>
    rw [hs2] at hok
    dsimp only [] at hok
    split at hok
    · simp only [Prod.mk.injEq, Except.ok.injEq] at hok
      obtain ⟨hres, -, -⟩ := hok
      rw [← hres] at hadd
      exact absurd hadd (by simp [StoreResult.zero])
    · cases hh2 : env.existsHash2Err with
      | some e =>
        rw [hh2] at hok
        dsimp only [] at hok
        exact absurd hok (by simp)
      | none =>
        rw [hh2] at hok
        dsimp only [] at hok
        split at hok
        · simp only [Prod.mk.injEq, Except.ok.injEq] at hok
          obtain ⟨hres, -, -⟩ := hok
          rw [← hres] at hadd
          exact absurd hadd (by simp [StoreResult.zero])
        · cases hseq : nextGallerySeqVal env st prepared.Orientation with
          | error e =>
            rw [hseq] at hok
            dsimp only [] at hok
            exact absurd hok (by simp)
          | ok seq =>
            rw [hseq] at hok
            dsimp only [] at hok
            simp only [Prod.mk.injEq] at hok
            obtain ⟨h1, h2, h3⟩ := hok
            have hT : storePhaseUpload env st inp prepared seq =
                (.ok res, st',
                  (storePhaseUpload env st inp prepared seq).2.2) := by
              rw [← h1, ← h2]
            exact storePhaseUpload_added env st inp prepared seq res st' _
              hT hadd

/-- An `added:true` result of the hash-check phase. -/
theorem storePhaseHashCheck_added (env : Env) (st : DBState)
    (inp : StoreInput) (prepared : PreparedImage) (res : StoreResult)
    (st' : DBState) (tr : List Event)
    (hok : storePhaseHashCheck env st inp prepared = (.ok res, st', tr))
    (hadd : res.added = true) :
    res.contentHash = prepared.SHA256 ∧
    hasSha st (goLower (goTrim prepared.SHA256)) = false ∧
    hasSha st' (goLower (goTrim prepared.SHA256)) = true ∧
    goLower (goTrim prepared.SHA256) ≠ "" := by
  unfold storePhaseHashCheck at hok
  cases hh1 : env.existsHash1Err with
  | some e =>
    rw [hh1] at hok
    dsimp only [] at hok
    exact absurd hok (by simp)
  | none =>
    rw [hh1] at hok
    dsimp only [] at hok
    split at hok
    · simp only [Prod.mk.injEq, Except.ok.injEq] at hok
      obtain ⟨hres, -, -⟩ := hok
      rw [← hres] at hadd
      exact absurd hadd (by simp [StoreResult.zero])
    · simp only [Prod.mk.injEq] at hok
      obtain ⟨h1, h2, h3⟩ := hok
      have hT : storePhaseLocked env st inp prepared =
          (.ok res, st',
            (storePhaseLocked env st inp prepared).2.2) := by
        rw [← h1, ← h2]
      exact storePhaseLocked_added env st inp prepared res st' _ hT hadd

/-- An `added:true` result of a whole call: its (normalized) fingerprint
was absent from the store when the call started and is present in the
resulting store. -/
theorem storeToGallery_added (s : Option Service) (env : Env) (ctx : Ctx)
    (st : DBState) (inp : StoreInput) (res : StoreResult) (st' : DBState)
    (tr : List Event)
    (hok : storeToGallery s env ctx st inp = (.ok res, st', tr))
    (hadd : res.added = true) :
    hasSha st (goLower (goTrim res.contentHash)) = false ∧
    hasSha st' (goLower (goTrim res.contentHash)) = true := by
  unfold storeToGallery at hok
  cases s with
  | none => exact absurd hok (by simp)
  | some svc =>
    dsimp only [] at hok
    split at hok
    · exact absurd hok (by simp)
    · split at hok
      · exact absurd hok (by simp)
      · split at hok
        · exact absurd hok (by simp)
        · cases hb : env.isBlockedErr with
          | some e =>
            rw [hb] at hok
            dsimp only [] at hok
            exact absurd hok (by simp)
          | none =>
            rw [hb] at hok
            dsimp only [] at hok
            split at hok
            · simp only [Prod.mk.injEq, Except.ok.injEq] at hok
              obtain ⟨hres, -, -⟩ := hok
              rw [← hres] at hadd
              exact absurd hadd (by decide)
            · cases hs1 : env.existsSrc1Err with
              | some e =>
                rw [hs1] at hok
                dsimp only [] at hok
                exact absurd hok (by simp)
              | none =>
                rw [hs1] at hok
                dsimp only [] at hok
                split at hok
                · simp only [Prod.mk.injEq, Except.ok.injEq] at hok
                  obtain ⟨hres, -, -⟩ := hok
                  rw [← hres] at hadd
                  exact absurd hadd (by decide)
                · cases hprep : env.prepare (trimInput inp).rawData with
                  | error e =>
                    rw [hprep] at hok
                    dsimp only [] at hok
                    exact absurd hok (by simp)
                  | ok prepared =>
                    rw [hprep] at hok
                    dsimp only [] at hok
                    simp only [Prod.mk.injEq] at hok
                    obtain ⟨h1, h2, h3⟩ := hok
                    have hT : storePhaseHashCheck env st (trimInput inp)
                        prepared =
                        (.ok res, st',
                          (storePhaseHashCheck env st (trimInput inp)
                            prepared).2.2) := by
                      rw [← h1, ← h2]
                    obtain ⟨hch, habs, hpres, -⟩ :=
                      storePhaseHashCheck_added env st (trimInput inp)
                        prepared res st' _ hT hadd
                    rw [hch]
                    exact ⟨habs, hpres⟩

/-- Once a fingerprint is in the store, no later sequential call reports
`added:true` for it. -/
theorem runStores_no_added_of_hasSha (s : Option Service)
    (calls : List (Env × Ctx × StoreInput)) (st : DBState) (F : String)
    (h : hasSha st F = true) :
    ((runStores s calls st).1.filter (addedWithHash F)).length = 0 := by
  induction calls generalizing st with
  | nil => rfl
  | cons c rest ih =>
    obtain ⟨env, ctx, inp⟩ := c
    dsimp only [runStores]
    rw [List.filter_cons]
    by_cases haw : addedWithHash F (storeToGallery s env ctx st inp).1 = true
    · exfalso
      unfold addedWithHash at haw
      cases hr : (storeToGallery s env ctx st inp).1 with
      | error e => rw [hr] at haw; simp at haw
      | ok res =>
        rw [hr] at haw
        dsimp only [] at haw
        simp only [Bool.and_eq_true, decide_eq_true_eq] at haw
        obtain ⟨hadd, hF⟩ := haw
        have hrun : storeToGallery s env ctx st inp =
            (.ok res, (storeToGallery s env ctx st inp).2.1,
              (storeToGallery s env ctx st inp).2.2) := by
          rw [← hr]
        have habs := (storeToGallery_added s env ctx st inp res _ _
          hrun hadd).1
        rw [hF, h] at habs
        cases habs
    · rw [if_neg haw]
      exact ih _ (storeToGallery_hasSha_mono s env ctx st inp F h)

/-- Over any sequence of sequential calls, at most one reports `added:true`
for a given fingerprint. -/
theorem runStores_added_le_one (s : Option Service)
    (calls : List (Env × Ctx × StoreInput)) (st : DBState) (F : String) :
    ((runStores s calls st).1.filter (addedWithHash F)).length ≤ 1 := by
  induction calls generalizing st with
  | nil => exact Nat.zero_le 1
  | cons c rest ih =>
    obtain ⟨env, ctx, inp⟩ := c
    dsimp only [runStores]
    rw [List.filter_cons]
    by_cases haw : addedWithHash F (storeToGallery s env ctx st inp).1 = true
    · rw [if_pos haw]
      rw [List.length_cons]
      have hzero : ((runStores s rest
          (storeToGallery s env ctx st inp).2.1).1.filter
            (addedWithHash F)).length = 0 := by
        unfold addedWithHash at haw
        cases hr : (storeToGallery s env ctx st inp).1 with
        | error e => rw [hr] at haw; simp at haw
        | ok res =>
          rw [hr] at haw
          dsimp only [] at haw
          simp only [Bool.and_eq_true, decide_eq_true_eq] at haw
          obtain ⟨hadd, hF⟩ := haw
          have hrun : storeToGallery s env ctx st inp =
              (.ok res, (storeToGallery s env ctx st inp).2.1,
                (storeToGallery s env ctx st inp).2.2) := by
            rw [← hr]
          have hpres := (storeToGallery_added s env ctx st inp res _ _
            hrun hadd).2
          rw [hF] at hpres
          exact runStores_no_added_of_hasSha s rest _ F hpres
      rw [hzero]
    · rw [if_neg haw]
      exact ih _

/-- C1: fingerprint-level dedup uniqueness over the sequential model.
First, over any sequence of `StoreToGallery` calls against one service
instance, at most one call whose fingerprint normalizes to a given value
returns `added:true`.  Second, a call that passes the configuration,
validation, blocklist and source-dedup gates, whose prepared fingerprint
already has a record in the metadata store (even though its source key has
none — so it differs from the existing record's), returns `added:false`
with skip reason `duplicate_hash` and the fingerprint in the result, a nil
error, and performs no insert: the store state is returned unchanged and
the trace stops at the fingerprint-existence query.  (The sequential model
never reaches the in-lock recheck for such a call, so the race-labelled
reason `duplicate_hash_race` does not arise here.) -/
theorem storeToGallery_fingerprint_unique :
    (∀ (s : Option Service) (calls : List (Env × Ctx × StoreInput))
        (st : DBState) (F : String),
      ((runStores s calls st).1.filter (addedWithHash F)).length ≤ 1) ∧
    (∀ (svc : Service) (env : Env) (ctx : Ctx) (st : DBState)
        (inp : StoreInput) (prepared : PreparedImage),
      svc.hasDB = true → svc.hasStore = true → svc.hasProcessor = true →
      goTrim inp.sourceKey ≠ "" → inp.rawData ≠ [] →
      env.isBlockedErr = none →
      isBlockedVal st (goTrim inp.sourceKey) = false →
      env.existsSrc1Err = none →
      existsSourceKeyVal st (goTrim inp.sourceKey) = false →
      env.prepare inp.rawData = .ok prepared →
      env.existsHash1Err = none →
      existsSHA256Val st prepared.SHA256 = true →
      storeToGallery (some svc) env ctx st inp =
        (.ok { StoreResult.zero with
                skipReason := "duplicate_hash"
                contentHash := prepared.SHA256 }, st,
          [Event.isBlocked (goTrim inp.sourceKey),
           Event.existsSourceKey (goTrim inp.sourceKey),
           Event.prepareCall,
           Event.existsSHA256 prepared.SHA256])) := by
  constructor
  · exact runStores_added_le_one
  · intro svc env ctx st inp prepared hdb hst hpr hkey hraw hb hblk hs1 hsrc
      hprep hh1 hhash
    have ehash : storePhaseHashCheck env st (trimInput inp) prepared =
        (.ok { StoreResult.zero with
                skipReason := "duplicate_hash"
                contentHash := prepared.SHA256 }, st,
          [Event.existsSHA256 prepared.SHA256]) := by
      simp only [storePhaseHashCheck, hh1, hhash, if_true, ite_true]
    simp only [storeToGallery, trimInput_sourceKey, trimInput_rawData, hb,
      hs1, hprep, hkey, hblk, hsrc, List.length_eq_zero, hraw,
      Bool.false_eq_true, if_false, ite_false, not_false_iff, if_true,
      ite_true]
    rw [if_neg (by simp [hdb, hst, hpr])]
    rw [ehash]

/-- Witness for C1: two sequential calls with the same prepared fingerprint
yield exactly one `added:true` (applying the first conjunct), and a call
whose fingerprint is already stored under a different source key skips with
`duplicate_hash` (applying the second conjunct). -/
theorem storeToGallery_fingerprint_unique_witness :
    ((runStores (some svcFull)
        [(envOk, Ctx.background, inpK),
         (envOk, Ctx.background, ⟨"", "", "k2", "", "", [7], 0, 0⟩)]
        stEmpty).1.filter (addedWithHash "ff")).length ≤ 1 ∧
    storeToGallery (some svcFull) envOk Ctx.background
        ⟨[{ GalleryImage.zero with sourceKey := "other", sha256 := "ff" }], []⟩
        inpK =
      (.ok { StoreResult.zero with
              skipReason := "duplicate_hash"
              contentHash := prepWebP.SHA256 },
        ⟨[{ GalleryImage.zero with sourceKey := "other", sha256 := "ff" }], []⟩,
        [Event.isBlocked (goTrim inpK.sourceKey),
         Event.existsSourceKey (goTrim inpK.sourceKey),
         Event.prepareCall,
         Event.existsSHA256 prepWebP.SHA256]) :=
  ⟨storeToGallery_fingerprint_unique.1 (some svcFull)
      [(envOk, Ctx.background, inpK),
       (envOk, Ctx.background, ⟨"", "", "k2", "", "", [7], 0, 0⟩)]
      stEmpty "ff",
   storeToGallery_fingerprint_unique.2 svcFull envOk Ctx.background
      ⟨[{ GalleryImage.zero with sourceKey := "other", sha256 := "ff" }], []⟩
      inpK prepWebP rfl rfl rfl (by decide) (by decide) rfl (by decide) rfl
      (by decide) rfl rfl (by decide)⟩

end TyrBlogImg
